import Mathlib

/-!
# Verification of the 8-puzzle A* solver

Shallow embedding of `src/main.py` and `src/puzzle_state.py`:
an A* search over 3x3 sliding-tile grids with Hamming and Manhattan
heuristics, together with proofs about the embedded definitions.

Modelling conventions:
* A Python 3x3 list-of-lists of small non-negative ints is a `Grid := List (List ℕ)`.
* Python list indexing `xs[i]` is modelled with `List.getD`; every theorem below
  only exercises it in bounds, where the default value is irrelevant.
* A Python function that can fall off the end (returning `None`) is modelled
  with `Option`, `none` standing for Python's `None`.
* The membership set `closed_list` stores `str(grid)`; since `str` is injective
  on lists of lists of ints, it is modelled as a list of grids with decidable
  membership, which has the same membership semantics.
* The unbounded `while open_list:` loop is modelled with explicit fuel
  (`aStarLoop`); `none` marks fuel exhaustion (an artifact of the embedding,
  proved unreachable for the runs considered), `some none` marks the Python
  function falling through and returning `None`, and `some (some (c, e))`
  marks `return current_state.g, expanded_nodes`.
-/

/-- A puzzle configuration: Python's 3x3 list of lists of ints. -/
abbrev Grid := List (List ℕ)

/-- `puzzle[i][j]` (in bounds in every use below). -/
def gridGet (g : Grid) (i j : ℕ) : ℕ := (g.getD i []).getD j 0

/-- `puzzle[i][j] = v` as a functional update. -/
def gridSet (g : Grid) (i j v : ℕ) : Grid := g.set i ((g.getD i []).set j v)

/-- `get_goal_state_puzzle` from `main.py`: the canonical solved grid. -/
def get_goal_state_puzzle : Grid := [[0, 1, 2], [3, 4, 5], [6, 7, 8]]

/-- Inner loop of `find_zero`: scan one row for a `0`, returning its column. -/
def findZeroRow : List ℕ → ℕ → Option ℕ
  | [], _ => none
  | v :: rest, j => if v = 0 then some j else findZeroRow rest (j + 1)

/-- Outer loop of `find_zero`: scan the rows in order. -/
def findZeroRows : List (List ℕ) → ℕ → Option (ℕ × ℕ)
  | [], _ => none
  | row :: rest, i =>
    match findZeroRow row 0 with
    | some j => some (i, j)
    | none => findZeroRows rest (i + 1)

/-- `find_zero` from `main.py`: position of the first `0` in row-major order;
Python falls through and returns `None` when there is no `0`. -/
def find_zero (puzzle : Grid) : Option (ℕ × ℕ) := findZeroRows puzzle 0

/-- `calc_hamming_distance` from `main.py`: literal `range(3)` double loop. -/
def calc_hamming_distance (puzzle goal_state : Grid) : ℕ :=
  (List.range 3).foldl (fun distance i =>
    (List.range 3).foldl (fun distance j =>
      if gridGet puzzle i j ≠ gridGet goal_state i j ∧ gridGet puzzle i j ≠ 0 then
        distance + 1
      else distance) distance) 0

/-- `calc_manhattan_distance` from `main.py`.  Note the guard is
`goal_state[i][j] != puzzle[i][j] and goal_state[i][j] != 0`, i.e. it skips the
cell holding the goal's blank and does not skip the cell holding the puzzle's
blank; the index arithmetic `abs(k - i) + abs(j - l)` is over ints. -/
def calc_manhattan_distance (puzzle goal_state : Grid) : ℕ :=
  (List.range puzzle.length).foldl (fun distance i =>
    (List.range puzzle.length).foldl (fun distance j =>
      if gridGet goal_state i j ≠ gridGet puzzle i j ∧ gridGet goal_state i j ≠ 0 then
        (List.range goal_state.length).foldl (fun distance k =>
          (List.range goal_state.length).foldl (fun distance l =>
            if gridGet goal_state k l = gridGet puzzle i j then
              distance + (((k : ℤ) - (i : ℤ)).natAbs + ((j : ℤ) - (l : ℤ)).natAbs)
            else distance) distance) distance
      else distance) distance) 0

/-- The Manhattan heuristic as the spec words it: for every non-zero tile value
in `grid`, find its position in `goal` and accumulate `|row_diff| + |col_diff|`
(the blank tile contributes nothing).  This is the spec-side reference for the
refinement claim about `calc_manhattan_distance`. -/
def manhattan_spec (grid goal : Grid) : ℕ :=
  (List.range 3).foldl (fun acc i =>
    (List.range 3).foldl (fun acc j =>
      if gridGet grid i j ≠ 0 then
        (List.range 3).foldl (fun acc k =>
          (List.range 3).foldl (fun acc l =>
            if gridGet goal k l = gridGet grid i j then
              acc + (((k : ℤ) - (i : ℤ)).natAbs + ((l : ℤ) - (j : ℤ)).natAbs)
            else acc) acc) acc
      else acc) acc) 0

/-- The direction list of `generate_successors`: up, down, left, right. -/
def directions : List (ℤ × ℤ) := [(-1, 0), (1, 0), (0, -1), (0, 1)]

/-- `generate_successors` from `main.py`.  For each in-bounds direction the
blank is swapped with the adjacent tile (Python's simultaneous assignment).
When `find_zero` returns `None`, the Python code raises a `TypeError` on
`zero_pos[0]`; that case is unreachable for every grid considered in this file
(they all contain a `0`) and is modelled as the empty successor list. -/
def generate_successors (puzzle : Grid) : List Grid :=
  match find_zero puzzle with
  | none => []
  | some zero_pos =>
    directions.foldl (fun successors direction =>
      let ni : ℤ := (zero_pos.1 : ℤ) + direction.1
      let nj : ℤ := (zero_pos.2 : ℤ) + direction.2
      if 0 ≤ ni ∧ ni < 3 ∧ 0 ≤ nj ∧ nj < 3 then
        let i2 := ni.toNat
        let j2 := nj.toNat
        let v1 := gridGet puzzle zero_pos.1 zero_pos.2
        let v2 := gridGet puzzle i2 j2
        successors ++ [gridSet (gridSet puzzle zero_pos.1 zero_pos.2 v2) i2 j2 v1]
      else successors) []

/-- `PuzzleState` from `puzzle_state.py`: a grid with its cost bookkeeping. -/
structure PuzzleState where
  puzzle : Grid
  g : ℕ
  h : ℕ
  f : ℕ
deriving Repr, DecidableEq

/-- `PuzzleState.__init__`: `f` is set to `g + h` at construction. -/
def PuzzleState.init (puzzle : Grid) (g h : ℕ) : PuzzleState := ⟨puzzle, g, h, g + h⟩

/-- Placeholder element for out-of-bounds list reads inside the heap code
(never actually read in bounds-respecting runs). -/
def PSdefault : PuzzleState := ⟨[], 0, 0, 0⟩

/-!
The open list is managed with Python's `heapq`, a binary heap over a list,
ordered by `PuzzleState.__lt__`, which compares `f` only.  The following four
definitions are direct translations of CPython's `heapq._siftdown`,
`heapq._siftup`, `heapq.heappush` and `heapq.heappop` specialised to that
comparison.
-/

/-- `heapq._siftdown(heap, startpos, pos)` with `newitem = heap[pos]`:
walk from `pos` towards the root, moving parents greater than `newitem` down,
and finally write `newitem` at the stopping position.  The first `ℕ` argument
is fuel bounding the number of loop iterations; every call below passes at
least `pos + 1`, which provably suffices since `pos` strictly decreases, so the
fuel-exhaustion branch is unreachable. -/
def siftdownLoop (newitem : PuzzleState) (startpos : ℕ) :
    ℕ → ℕ → List PuzzleState → List PuzzleState
  | 0, pos, heap => heap.set pos newitem
  | fuel + 1, pos, heap =>
    if startpos < pos then
      let parentpos := (pos - 1) / 2
      let parent := heap.getD parentpos PSdefault
      if newitem.f < parent.f then
        siftdownLoop newitem startpos fuel parentpos (heap.set pos parent)
      else heap.set pos newitem
    else heap.set pos newitem

/-- The `while childpos < endpos` loop of `heapq._siftup`: move the hole at
`pos` down, always promoting the smaller child (ties resolved towards the
right child exactly as CPython does), returning the final hole position and
the updated list.  The first `ℕ` after `endpos` is fuel; every call below
passes at least `endpos - pos`, which provably suffices since `pos` strictly
increases towards `endpos`. -/
def siftupLoop (endpos : ℕ) : ℕ → ℕ → List PuzzleState → ℕ × List PuzzleState
  | 0, pos, heap => (pos, heap)
  | fuel + 1, pos, heap =>
    let childpos := 2 * pos + 1
    if childpos < endpos then
      let rightpos := childpos + 1
      let childpos2 :=
        if rightpos < endpos ∧
            ¬ (heap.getD childpos PSdefault).f < (heap.getD rightpos PSdefault).f then
          rightpos
        else childpos
      siftupLoop endpos fuel childpos2 (heap.set pos (heap.getD childpos2 PSdefault))
    else (pos, heap)

/-- `heapq._siftup(heap, pos)`: bubble the hole to a leaf, drop `newitem`
there, then sift it back up towards `pos`. -/
def siftup (heap : List PuzzleState) (pos : ℕ) : List PuzzleState :=
  let endpos := heap.length
  let startpos := pos
  let newitem := heap.getD pos PSdefault
  let r := siftupLoop endpos (endpos - pos) pos heap
  siftdownLoop newitem startpos (r.1 + 1) r.1 ((r.2).set r.1 newitem)

/-- `heapq.heappush`: append, then sift the new item towards the root. -/
def heappush (heap : List PuzzleState) (item : PuzzleState) : List PuzzleState :=
  let heap2 := heap ++ [item]
  siftdownLoop item 0 heap2.length (heap2.length - 1) heap2

/-- `heapq.heappop`: pop the last element; if the heap is still non-empty,
return the root and re-establish the heap with `_siftup`.  Python raises
`IndexError` on an empty heap; `a_star` only pops while `open_list` is
non-empty, so that case (modelled as `(PSdefault, [])`) is unreachable. -/
def heappop (heap : List PuzzleState) : PuzzleState × List PuzzleState :=
  let lastelt := heap.getLastD PSdefault
  let rest := heap.dropLast
  if rest.isEmpty then (lastelt, [])
  else
    let returnitem := rest.getD 0 PSdefault
    let heap2 := rest.set 0 lastelt
    (returnitem, siftup heap2 0)

/-- The `while open_list:` loop of `a_star`, with explicit fuel.
`none` = fuel ran out (embedding artifact), `some none` = the Python function
fell through and returned `None`, `some (some (c, e))` = `return g, expanded`. -/
def aStarLoop (heuristic : Grid → Grid → ℕ) (goal_state : Grid) :
    ℕ → List PuzzleState → List Grid → ℕ → Option (Option (ℕ × ℕ))
  | 0, _, _, _ => none
  | fuel + 1, openList, closedList, expanded =>
    if openList.isEmpty then some none
    else
      let p := heappop openList
      let expanded2 := expanded + 1
      if p.1.puzzle ∈ closedList then
        aStarLoop heuristic goal_state fuel p.2 closedList expanded2
      else
        let closed2 := p.1.puzzle :: closedList
        if p.1.puzzle = goal_state then some (some (p.1.g, expanded2))
        else
          let open2 := (generate_successors p.1.puzzle).foldl
            (fun acc successor =>
              if successor ∈ closed2 then acc
              else
                heappush acc
                  (PuzzleState.init successor (p.1.g + 1) (heuristic successor goal_state)))
            p.2
          aStarLoop heuristic goal_state fuel open2 closed2 expanded2

/-- Fuel that provably suffices for every run from a well-formed start grid:
each iteration strictly decreases `|open| + 5 * (9^9 - |closed|)`. -/
def aStarFuel : ℕ := 5 * 9 ^ 9 + 2

/-- `a_star` from `main.py`: push the start node, then run the loop with empty
closed set and a zero expansion counter. -/
def a_star (puzzle goal_state : Grid) (heuristic : Grid → Grid → ℕ) :
    Option (Option (ℕ × ℕ)) :=
  aStarLoop heuristic goal_state aStarFuel
    (heappush [] (PuzzleState.init puzzle 0 (heuristic puzzle goal_state))) [] 0

/-!
Specification-side notions: well-formed grids, reachability by single-tile
moves, and a computable over-approximation of the reachable ball used to
decide bounded non-reachability.
-/

/-- A well-formed 8-puzzle configuration: three rows of three cells whose nine
entries are a permutation of `0, …, 8`. -/
def ValidGrid (g : Grid) : Prop :=
  g.map List.length = [3, 3, 3] ∧ g.flatten.Perm (List.range 9)

instance : DecidablePred ValidGrid := fun g => by
  unfold ValidGrid
  infer_instance

/-- `ReachesIn start n g`: grid `g` is obtainable from `start` by exactly `n`
single-tile moves (a move being the passage to one of `generate_successors`). -/
inductive ReachesIn (start : Grid) : ℕ → Grid → Prop
  | refl : ReachesIn start 0 start
  | step {n : ℕ} {g s : Grid} :
      ReachesIn start n g → s ∈ generate_successors g → ReachesIn start (n + 1) s

/-- One expansion of a reachability ball: keep the frontier and add every
successor of every member, deduplicated. -/
def stepBall (frontier : List Grid) : List Grid :=
  (frontier ++ (frontier.map generate_successors).flatten).dedup

/-- All grids reachable from `s` in at most `n` moves are members of
`ballUpTo s n` (proved below); used to decide bounded non-reachability. -/
def ballUpTo (s : Grid) : ℕ → List Grid
  | 0 => [s]
  | n + 1 => stepBall (ballUpTo s n)

/-! ### Membership lemmas for the reachability ball -/

theorem mem_stepBall_of_mem {frontier : List Grid} {g : Grid} (hg : g ∈ frontier) :
    g ∈ stepBall frontier := by
  unfold stepBall
  rw [List.mem_dedup, List.mem_append]
  exact Or.inl hg

theorem mem_stepBall_of_succ {frontier : List Grid} {g s : Grid} (hg : g ∈ frontier)
    (hs : s ∈ generate_successors g) : s ∈ stepBall frontier := by
  unfold stepBall
  rw [List.mem_dedup, List.mem_append]
  refine Or.inr ?_
  rw [List.mem_flatten]
  exact ⟨generate_successors g, List.mem_map_of_mem _ hg, hs⟩

theorem reachesIn_mem_ballUpTo {s t : Grid} {n : ℕ} (h : ReachesIn s n t) :
    t ∈ ballUpTo s n := by
  induction h with
  | refl => simp [ballUpTo]
  | step hr hsucc ih => exact mem_stepBall_of_succ ih hsucc

theorem ballUpTo_subset_succ {s : Grid} {n : ℕ} : ballUpTo s n ⊆ ballUpTo s (n + 1) :=
  fun _ hg => mem_stepBall_of_mem hg

theorem reachesIn_mem_ballUpTo_of_le {s t : Grid} {m n : ℕ} (h : ReachesIn s m t)
    (hmn : m ≤ n) : t ∈ ballUpTo s n := by
  induction n with
  | zero =>
    have hm : m = 0 := Nat.le_zero.mp hmn
    subst hm
    exact reachesIn_mem_ballUpTo h
  | succ k ih =>
    rcases Nat.lt_or_ge m (k + 1) with hlt | hge
    · exact ballUpTo_subset_succ (ih (Nat.lt_succ_iff.mp hlt))
    · have hm : m = k + 1 := Nat.le_antisymm hmn hge
      subst hm
      exact reachesIn_mem_ballUpTo h

theorem not_reachesIn_of_not_mem_ball {s t : Grid} {m n : ℕ} (hmn : m ≤ n)
    (hmem : t ∉ ballUpTo s n) : ¬ ReachesIn s m t :=
  fun h => hmem (reachesIn_mem_ballUpTo_of_le h hmn)

set_option maxRecDepth 8000

/-! ### Behaviour of `find_zero` -/

theorem findZeroRow_of_mem {row : List ℕ} (hmem : (0 : ℕ) ∈ row) (j0 : ℕ) :
    ∃ k, findZeroRow row j0 = some (j0 + k) ∧ k < row.length ∧ row.getD k 0 = 0 := by
  induction row generalizing j0 with
  | nil => cases hmem
  | cons v rest ih =>
    by_cases hv : v = 0
    · subst hv
      exact ⟨0, by simp [findZeroRow], by simp, by simp⟩
    · have hrest : (0 : ℕ) ∈ rest := by
        rcases List.mem_cons.mp hmem with h | h
        · exact absurd h.symm hv
        · exact h
      obtain ⟨k, hk, hklen, hkval⟩ := ih hrest (j0 + 1)
      refine ⟨k + 1, ?_, ?_, ?_⟩
      · simp only [findZeroRow, if_neg hv]
        rw [hk]
        congr 1
        omega
      · simpa using Nat.succ_lt_succ hklen
      · simpa using hkval

theorem findZeroRow_of_not_mem {row : List ℕ} (hmem : (0 : ℕ) ∉ row) (j0 : ℕ) :
    findZeroRow row j0 = none := by
  induction row generalizing j0 with
  | nil => rfl
  | cons v rest ih =>
    have hv : v ≠ 0 := fun hv => hmem (by simp [hv])
    have hrest : (0 : ℕ) ∉ rest := fun hr => hmem (List.mem_cons_of_mem _ hr)
    simp only [findZeroRow, if_neg hv]
    exact ih hrest _

theorem findZeroRows_of_mem {rows : List (List ℕ)}
    (hmem : ∃ row ∈ rows, (0 : ℕ) ∈ row) (i0 : ℕ) :
    ∃ i k, findZeroRows rows i0 = some (i0 + i, k) ∧ i < rows.length ∧
      k < (rows.getD i []).length ∧ (rows.getD i []).getD k 0 = 0 := by
  induction rows generalizing i0 with
  | nil => simp at hmem
  | cons row rest ih =>
    by_cases hrow : (0 : ℕ) ∈ row
    · obtain ⟨k, hk, hklen, hkval⟩ := findZeroRow_of_mem hrow 0
      refine ⟨0, 0 + k, ?_, by simp, by simpa using hklen, by simpa using hkval⟩
      simp only [findZeroRows, hk]
      rw [Nat.add_zero]
    · have hrest : ∃ r ∈ rest, (0 : ℕ) ∈ r := by
        rcases hmem with ⟨r, hr, h0⟩
        rcases List.mem_cons.mp hr with h | h
        · exact absurd (h ▸ h0) hrow
        · exact ⟨r, h, h0⟩
      obtain ⟨i, k, hk, hilen, hklen, hkval⟩ := ih hrest (i0 + 1)
      refine ⟨i + 1, k, ?_, by simpa using Nat.succ_lt_succ hilen, by simpa using hklen,
        by simpa using hkval⟩
      simp only [findZeroRows, findZeroRow_of_not_mem hrow]
      rw [hk]
      congr 2
      omega

theorem findZeroRows_of_not_mem {rows : List (List ℕ)}
    (hmem : ∀ row ∈ rows, (0 : ℕ) ∉ row) (i0 : ℕ) :
    findZeroRows rows i0 = none := by
  induction rows generalizing i0 with
  | nil => rfl
  | cons row rest ih =>
    simp only [findZeroRows, findZeroRow_of_not_mem (hmem row (by simp))]
    exact ih (fun r hr => hmem r (List.mem_cons_of_mem _ hr)) _

/-! ### Claims settled by direct evaluation of the embedded code -/

/-- C9: `a_star(goal, goal, hamming)` pops the start node once, finds it equal
to the goal, and returns cost `0` with expansion count `1`. -/
theorem c9_trivial_search :
    a_star get_goal_state_puzzle get_goal_state_puzzle calc_hamming_distance =
      some (some (0, 1)) := by
  rfl

/-- C5 (divergence witness): on an input whose whole reachable component is
explored without meeting the goal, the frontier empties and `a_star` falls off
the `while` loop, returning Python's `None` (modelled `some none`) — not a
distinguishable "no solution found" result.  The all-zero grid exhausts after
a single expansion, because every successor equals the already-closed start. -/
theorem c5_exhaustion_returns_none :
    a_star [[0, 0, 0], [0, 0, 0], [0, 0, 0]] get_goal_state_puzzle calc_hamming_distance =
      some none := by
  rfl

/-- C6 (counterexample to the error-handling half): on a grid with no `0`,
`find_zero` does not fail with an invariant-violation error; it falls off the
loops and returns Python's `None` (modelled `none`), a normal absent value. -/
theorem c6_counterexample : find_zero [[1, 2, 3], [4, 5, 6], [7, 8, 9]] = none := rfl

/-- C6 (amended): `find_zero` returns the position of a `0` cell whenever one
is present, and silently returns `None` — not an error — when none is present. -/
theorem c6_amended (g : Grid) :
    ((∃ row ∈ g, (0 : ℕ) ∈ row) →
      ∃ i j, find_zero g = some (i, j) ∧ i < g.length ∧ j < (g.getD i []).length ∧
        gridGet g i j = 0) ∧
    ((∀ row ∈ g, (0 : ℕ) ∉ row) → find_zero g = none) := by
  constructor
  · intro hmem
    obtain ⟨i, k, hk, hilen, hklen, hkval⟩ := findZeroRows_of_mem hmem 0
    exact ⟨i, k, by simpa [find_zero] using hk, hilen, hklen, hkval⟩
  · intro hmem
    exact findZeroRows_of_not_mem hmem 0

/-- Witness for the amended C6 at a concrete grid containing a `0`. -/
theorem c6_witness :
    (∃ row ∈ ([[1, 0, 2]] : Grid), (0 : ℕ) ∈ row) ∧
    (∃ i j, find_zero [[1, 0, 2]] = some (i, j) ∧ i < ([[1, 0, 2]] : Grid).length ∧
      j < (([[1, 0, 2]] : Grid).getD i []).length ∧ gridGet [[1, 0, 2]] i j = 0) :=
  ⟨by decide, (c6_amended [[1, 0, 2]]).1 (by decide)⟩

/-- C2 (divergence witness): on `[[1,2,0],[3,4,5],[6,7,8]]` against the
canonical goal, the code computes `3` — it charges the displaced blank (2 away
from the goal blank cell) and ignores tile `1` sitting on the goal blank cell
(1 away from home) — whereas the spec formula (sum over non-zero tiles only)
gives `2`. -/
theorem c2_manhattan_divergence :
    calc_manhattan_distance [[1, 2, 0], [3, 4, 5], [6, 7, 8]] get_goal_state_puzzle = 3 ∧
    manhattan_spec [[1, 2, 0], [3, 4, 5], [6, 7, 8]] get_goal_state_puzzle = 2 :=
  ⟨by rfl, by rfl⟩

/-! ### Well-formed grids: shape, entries, and the complete successor tables -/

theorem valid_shape {g : Grid} (hv : ValidGrid g) :
    ∃ a b c d e f p q r : ℕ, g = [[a, b, c], [d, e, f], [p, q, r]] := by
  obtain ⟨hshape, _⟩ := hv
  rcases g with _ | ⟨r1, g⟩
  · simp at hshape
  rcases g with _ | ⟨r2, g⟩
  · simp at hshape
  rcases g with _ | ⟨r3, g⟩
  · simp at hshape
  rcases g with _ | ⟨r4, g⟩
  swap
  · simp at hshape
  simp only [List.map_cons, List.map_nil, List.cons.injEq, and_true] at hshape
  obtain ⟨a, b, c, rfl⟩ := List.length_eq_three.mp hshape.1
  obtain ⟨d, e, f, rfl⟩ := List.length_eq_three.mp hshape.2.1
  obtain ⟨p, q, r, rfl⟩ := List.length_eq_three.mp hshape.2.2
  exact ⟨a, b, c, d, e, f, p, q, r, rfl⟩

theorem valid_entry_lt {g : Grid} (hv : ValidGrid g) : ∀ x ∈ g.flatten, x < 9 := by
  intro x hx
  exact List.mem_range.mp (hv.2.mem_iff.mp hx)

set_option maxHeartbeats 3200000 in
/-- Complete table of `find_zero` and `generate_successors` over well-formed
grids: one case per blank position, listing the successors in the code's
up-down-left-right order. -/
theorem succ_cases {g : Grid} (hv : ValidGrid g) :
    ∃ a b c d e f p q r : ℕ, g = [[a, b, c], [d, e, f], [p, q, r]] ∧
      ((a = 0 ∧ (0 : ℕ) ∉ [b, c, d, e, f, p, q, r] ∧
          find_zero [[a, b, c], [d, e, f], [p, q, r]] = some (0, 0) ∧
          generate_successors [[a, b, c], [d, e, f], [p, q, r]] =
            [[[d, b, c], [a, e, f], [p, q, r]], [[b, a, c], [d, e, f], [p, q, r]]]) ∨
       (b = 0 ∧ (0 : ℕ) ∉ [a, c, d, e, f, p, q, r] ∧
          find_zero [[a, b, c], [d, e, f], [p, q, r]] = some (0, 1) ∧
          generate_successors [[a, b, c], [d, e, f], [p, q, r]] =
            [[[a, e, c], [d, b, f], [p, q, r]], [[b, a, c], [d, e, f], [p, q, r]],
             [[a, c, b], [d, e, f], [p, q, r]]]) ∨
       (c = 0 ∧ (0 : ℕ) ∉ [a, b, d, e, f, p, q, r] ∧
          find_zero [[a, b, c], [d, e, f], [p, q, r]] = some (0, 2) ∧
          generate_successors [[a, b, c], [d, e, f], [p, q, r]] =
            [[[a, b, f], [d, e, c], [p, q, r]], [[a, c, b], [d, e, f], [p, q, r]]]) ∨
       (d = 0 ∧ (0 : ℕ) ∉ [a, b, c, e, f, p, q, r] ∧
          find_zero [[a, b, c], [d, e, f], [p, q, r]] = some (1, 0) ∧
          generate_successors [[a, b, c], [d, e, f], [p, q, r]] =
            [[[d, b, c], [a, e, f], [p, q, r]], [[a, b, c], [p, e, f], [d, q, r]],
             [[a, b, c], [e, d, f], [p, q, r]]]) ∨
       (e = 0 ∧ (0 : ℕ) ∉ [a, b, c, d, f, p, q, r] ∧
          find_zero [[a, b, c], [d, e, f], [p, q, r]] = some (1, 1) ∧
          generate_successors [[a, b, c], [d, e, f], [p, q, r]] =
            [[[a, e, c], [d, b, f], [p, q, r]], [[a, b, c], [d, q, f], [p, e, r]],
             [[a, b, c], [e, d, f], [p, q, r]], [[a, b, c], [d, f, e], [p, q, r]]]) ∨
       (f = 0 ∧ (0 : ℕ) ∉ [a, b, c, d, e, p, q, r] ∧
          find_zero [[a, b, c], [d, e, f], [p, q, r]] = some (1, 2) ∧
          generate_successors [[a, b, c], [d, e, f], [p, q, r]] =
            [[[a, b, f], [d, e, c], [p, q, r]], [[a, b, c], [d, e, r], [p, q, f]],
             [[a, b, c], [d, f, e], [p, q, r]]]) ∨
       (p = 0 ∧ (0 : ℕ) ∉ [a, b, c, d, e, f, q, r] ∧
          find_zero [[a, b, c], [d, e, f], [p, q, r]] = some (2, 0) ∧
          generate_successors [[a, b, c], [d, e, f], [p, q, r]] =
            [[[a, b, c], [p, e, f], [d, q, r]], [[a, b, c], [d, e, f], [q, p, r]]]) ∨
       (q = 0 ∧ (0 : ℕ) ∉ [a, b, c, d, e, f, p, r] ∧
          find_zero [[a, b, c], [d, e, f], [p, q, r]] = some (2, 1) ∧
          generate_successors [[a, b, c], [d, e, f], [p, q, r]] =
            [[[a, b, c], [d, q, f], [p, e, r]], [[a, b, c], [d, e, f], [q, p, r]],
             [[a, b, c], [d, e, f], [p, r, q]]]) ∨
       (r = 0 ∧ (0 : ℕ) ∉ [a, b, c, d, e, f, p, q] ∧
          find_zero [[a, b, c], [d, e, f], [p, q, r]] = some (2, 2) ∧
          generate_successors [[a, b, c], [d, e, f], [p, q, r]] =
            [[[a, b, c], [d, e, r], [p, q, f]], [[a, b, c], [d, e, f], [p, r, q]]])) := by
  obtain ⟨a, b, c, d, e, f, p, q, r, rfl⟩ := valid_shape hv
  have hcount : ([a, b, c, d, e, f, p, q, r] : List ℕ).count 0 = 1 := by
    have h9 := hv.2
    have hfl : ([[a, b, c], [d, e, f], [p, q, r]] : Grid).flatten =
        [a, b, c, d, e, f, p, q, r] := by simp
    rw [hfl] at h9
    rw [h9.count_eq]
    rfl
  refine ⟨a, b, c, d, e, f, p, q, r, rfl, ?_⟩
  by_cases ha : a = 0
  · have hfz : find_zero [[a, b, c], [d, e, f], [p, q, r]] = some (0, 0) := by
      simp [find_zero, findZeroRows, findZeroRow, ha]
    refine Or.inl ⟨ha, ?_, hfz, ?_⟩
    · intro hmem
      simp only [List.mem_cons, List.not_mem_nil, or_false] at hmem
      rcases hmem with h | h | h | h | h | h | h | h <;> subst h <;>
        simp [List.count_cons, ha] at hcount <;> omega
    · rw [generate_successors, hfz]
      simp [directions, gridGet, gridSet]
  by_cases hb : b = 0
  · have hfz : find_zero [[a, b, c], [d, e, f], [p, q, r]] = some (0, 1) := by
      simp [find_zero, findZeroRows, findZeroRow, ha, hb]
    refine Or.inr (Or.inl ⟨hb, ?_, hfz, ?_⟩)
    · intro hmem
      simp only [List.mem_cons, List.not_mem_nil, or_false] at hmem
      rcases hmem with h | h | h | h | h | h | h | h <;> subst h <;>
        simp [List.count_cons, hb] at hcount <;> omega
    · rw [generate_successors, hfz]
      simp [directions, gridGet, gridSet]
  by_cases hc : c = 0
  · have hfz : find_zero [[a, b, c], [d, e, f], [p, q, r]] = some (0, 2) := by
      simp [find_zero, findZeroRows, findZeroRow, ha, hb, hc]
    refine Or.inr (Or.inr (Or.inl ⟨hc, ?_, hfz, ?_⟩))
    · intro hmem
      simp only [List.mem_cons, List.not_mem_nil, or_false] at hmem
      rcases hmem with h | h | h | h | h | h | h | h <;> subst h <;>
        simp [List.count_cons, hc] at hcount <;> omega
    · rw [generate_successors, hfz]
      simp [directions, gridGet, gridSet]
  by_cases hd : d = 0
  · have hfz : find_zero [[a, b, c], [d, e, f], [p, q, r]] = some (1, 0) := by
      simp [find_zero, findZeroRows, findZeroRow, ha, hb, hc, hd]
    refine Or.inr (Or.inr (Or.inr (Or.inl ⟨hd, ?_, hfz, ?_⟩)))
    · intro hmem
      simp only [List.mem_cons, List.not_mem_nil, or_false] at hmem
      rcases hmem with h | h | h | h | h | h | h | h <;> subst h <;>
        simp [List.count_cons, hd] at hcount <;> omega
    · rw [generate_successors, hfz]
      simp [directions, gridGet, gridSet]
  by_cases he : e = 0
  · have hfz : find_zero [[a, b, c], [d, e, f], [p, q, r]] = some (1, 1) := by
      simp [find_zero, findZeroRows, findZeroRow, ha, hb, hc, hd, he]
    refine Or.inr (Or.inr (Or.inr (Or.inr (Or.inl ⟨he, ?_, hfz, ?_⟩))))
    · intro hmem
      simp only [List.mem_cons, List.not_mem_nil, or_false] at hmem
      rcases hmem with h | h | h | h | h | h | h | h <;> subst h <;>
        simp [List.count_cons, he] at hcount <;> omega
    · rw [generate_successors, hfz]
      simp [directions, gridGet, gridSet]
  by_cases hf : f = 0
  · have hfz : find_zero [[a, b, c], [d, e, f], [p, q, r]] = some (1, 2) := by
      simp [find_zero, findZeroRows, findZeroRow, ha, hb, hc, hd, he, hf]
    refine Or.inr (Or.inr (Or.inr (Or.inr (Or.inr (Or.inl ⟨hf, ?_, hfz, ?_⟩)))))
    · intro hmem
      simp only [List.mem_cons, List.not_mem_nil, or_false] at hmem
      rcases hmem with h | h | h | h | h | h | h | h <;> subst h <;>
        simp [List.count_cons, hf] at hcount <;> omega
    · rw [generate_successors, hfz]
      simp [directions, gridGet, gridSet]
  by_cases hp : p = 0
  · have hfz : find_zero [[a, b, c], [d, e, f], [p, q, r]] = some (2, 0) := by
      simp [find_zero, findZeroRows, findZeroRow, ha, hb, hc, hd, he, hf, hp]
    refine Or.inr (Or.inr (Or.inr (Or.inr (Or.inr (Or.inr (Or.inl ⟨hp, ?_, hfz, ?_⟩))))))
    · intro hmem
      simp only [List.mem_cons, List.not_mem_nil, or_false] at hmem
      rcases hmem with h | h | h | h | h | h | h | h <;> subst h <;>
        simp [List.count_cons, hp] at hcount <;> omega
    · rw [generate_successors, hfz]
      simp [directions, gridGet, gridSet]
  by_cases hq : q = 0
  · have hfz : find_zero [[a, b, c], [d, e, f], [p, q, r]] = some (2, 1) := by
      simp [find_zero, findZeroRows, findZeroRow, ha, hb, hc, hd, he, hf, hp, hq]
    refine Or.inr (Or.inr (Or.inr (Or.inr (Or.inr (Or.inr (Or.inr (Or.inl ⟨hq, ?_, hfz, ?_⟩)))))))
    · intro hmem
      simp only [List.mem_cons, List.not_mem_nil, or_false] at hmem
      rcases hmem with h | h | h | h | h | h | h | h <;> subst h <;>
        simp [List.count_cons, hq] at hcount <;> omega
    · rw [generate_successors, hfz]
      simp [directions, gridGet, gridSet]
  by_cases hr : r = 0
  · have hfz : find_zero [[a, b, c], [d, e, f], [p, q, r]] = some (2, 2) := by
      simp [find_zero, findZeroRows, findZeroRow, ha, hb, hc, hd, he, hf, hp, hq, hr]
    refine Or.inr (Or.inr (Or.inr (Or.inr (Or.inr (Or.inr (Or.inr (Or.inr (⟨hr, ?_, hfz, ?_⟩))))))))
    · intro hmem
      simp only [List.mem_cons, List.not_mem_nil, or_false] at hmem
      rcases hmem with h | h | h | h | h | h | h | h <;> subst h <;>
        simp [List.count_cons, hr] at hcount <;> omega
    · rw [generate_successors, hfz]
      simp [directions, gridGet, gridSet]
  exfalso
  simp [List.count_cons, ha, hb, hc, hd, he, hf, hp, hq, hr] at hcount


set_option maxHeartbeats 3200000 in
/-- C8: on a well-formed grid, `generate_successors` returns between 2 and 4
grids — exactly `2 + [blank row is middle] + [blank column is middle]`, i.e.
2 in a corner, 3 on an edge, 4 in the centre — each obtained by swapping the
blank with one axis-adjacent tile (all other cells unchanged), the input grid
itself is never among them, and they appear in the fixed up, down, left, right
order with out-of-bounds moves skipped. -/
theorem c8_successors (g : Grid) (hv : ValidGrid g) :
    ∃ bi bj, find_zero g = some (bi, bj) ∧ bi < 3 ∧ bj < 3 ∧ gridGet g bi bj = 0 ∧
      2 ≤ (generate_successors g).length ∧ (generate_successors g).length ≤ 4 ∧
      (generate_successors g).length =
        2 + (if bi = 1 then 1 else 0) + (if bj = 1 then 1 else 0) ∧
      g ∉ generate_successors g ∧
      (∀ s ∈ generate_successors g, ∃ i2 j2 : ℕ, i2 < 3 ∧ j2 < 3 ∧
        ((bi : ℤ) - (i2 : ℤ)).natAbs + ((bj : ℤ) - (j2 : ℤ)).natAbs = 1 ∧
        (∀ i j, i < 3 → j < 3 →
          gridGet s i j = if i = bi ∧ j = bj then gridGet g i2 j2
            else if i = i2 ∧ j = j2 then 0 else gridGet g i j)) ∧
      generate_successors g =
        (([((bi : ℤ) - 1, (bj : ℤ)), ((bi : ℤ) + 1, (bj : ℤ)),
           ((bi : ℤ), (bj : ℤ) - 1), ((bi : ℤ), (bj : ℤ) + 1)].filter
            (fun t => decide (0 ≤ t.1 ∧ t.1 < 3 ∧ 0 ≤ t.2 ∧ t.2 < 3))).map
          (fun t => gridSet (gridSet g bi bj (gridGet g t.1.toNat t.2.toNat))
            t.1.toNat t.2.toNat (gridGet g bi bj))) := by
  rcases succ_cases hv with ⟨a, b, c, d, e, f, p, q, r, rfl, hcase⟩
  rcases hcase with ⟨h0, hnot, hfz, hsucc⟩ | ⟨h0, hnot, hfz, hsucc⟩ | ⟨h0, hnot, hfz, hsucc⟩ |
    ⟨h0, hnot, hfz, hsucc⟩ | ⟨h0, hnot, hfz, hsucc⟩ | ⟨h0, hnot, hfz, hsucc⟩ |
    ⟨h0, hnot, hfz, hsucc⟩ | ⟨h0, hnot, hfz, hsucc⟩ | ⟨h0, hnot, hfz, hsucc⟩
  · simp only [List.mem_cons, List.not_mem_nil, or_false, not_or] at hnot
    refine ⟨0, 0, hfz, by norm_num, by norm_num, by simp [gridGet, h0],
      by rw [hsucc]; norm_num, by rw [hsucc]; norm_num, by rw [hsucc]; norm_num,
      ?_, ?_, ?_⟩
    · rw [hsucc]
      intro hmem
      simp only [List.mem_cons, List.not_mem_nil, or_false] at hmem
      rcases hmem with h | h <;> simp_all
    · rw [hsucc]
      intro s hs
      simp only [List.mem_cons, List.not_mem_nil, or_false] at hs
      rcases hs with rfl | rfl
      · refine ⟨1, 0, by norm_num, by norm_num, by norm_num, ?_⟩
        intro i j hi hj
        interval_cases i <;> interval_cases j <;> simp [gridGet, h0]
      · refine ⟨0, 1, by norm_num, by norm_num, by norm_num, ?_⟩
        intro i j hi hj
        interval_cases i <;> interval_cases j <;> simp [gridGet, h0]
    · rw [hsucc]
      simp [gridGet, gridSet, h0]
  · simp only [List.mem_cons, List.not_mem_nil, or_false, not_or] at hnot
    refine ⟨0, 1, hfz, by norm_num, by norm_num, by simp [gridGet, h0],
      by rw [hsucc]; norm_num, by rw [hsucc]; norm_num, by rw [hsucc]; norm_num,
      ?_, ?_, ?_⟩
    · rw [hsucc]
      intro hmem
      simp only [List.mem_cons, List.not_mem_nil, or_false] at hmem
      rcases hmem with h | h | h <;> simp_all
    · rw [hsucc]
      intro s hs
      simp only [List.mem_cons, List.not_mem_nil, or_false] at hs
      rcases hs with rfl | rfl | rfl
      · refine ⟨1, 1, by norm_num, by norm_num, by norm_num, ?_⟩
        intro i j hi hj
        interval_cases i <;> interval_cases j <;> simp [gridGet, h0]
      · refine ⟨0, 0, by norm_num, by norm_num, by norm_num, ?_⟩
        intro i j hi hj
        interval_cases i <;> interval_cases j <;> simp [gridGet, h0]
      · refine ⟨0, 2, by norm_num, by norm_num, by norm_num, ?_⟩
        intro i j hi hj
        interval_cases i <;> interval_cases j <;> simp [gridGet, h0]
    · rw [hsucc]
      simp [gridGet, gridSet, h0]
  · simp only [List.mem_cons, List.not_mem_nil, or_false, not_or] at hnot
    refine ⟨0, 2, hfz, by norm_num, by norm_num, by simp [gridGet, h0],
      by rw [hsucc]; norm_num, by rw [hsucc]; norm_num, by rw [hsucc]; norm_num,
      ?_, ?_, ?_⟩
    · rw [hsucc]
      intro hmem
      simp only [List.mem_cons, List.not_mem_nil, or_false] at hmem
      rcases hmem with h | h <;> simp_all
    · rw [hsucc]
      intro s hs
      simp only [List.mem_cons, List.not_mem_nil, or_false] at hs
      rcases hs with rfl | rfl
      · refine ⟨1, 2, by norm_num, by norm_num, by norm_num, ?_⟩
        intro i j hi hj
        interval_cases i <;> interval_cases j <;> simp [gridGet, h0]
      · refine ⟨0, 1, by norm_num, by norm_num, by norm_num, ?_⟩
        intro i j hi hj
        interval_cases i <;> interval_cases j <;> simp [gridGet, h0]
    · rw [hsucc]
      simp [gridGet, gridSet, h0]
  · simp only [List.mem_cons, List.not_mem_nil, or_false, not_or] at hnot
    refine ⟨1, 0, hfz, by norm_num, by norm_num, by simp [gridGet, h0],
      by rw [hsucc]; norm_num, by rw [hsucc]; norm_num, by rw [hsucc]; norm_num,
      ?_, ?_, ?_⟩
    · rw [hsucc]
      intro hmem
      simp only [List.mem_cons, List.not_mem_nil, or_false] at hmem
      rcases hmem with h | h | h <;> simp_all
    · rw [hsucc]
      intro s hs
      simp only [List.mem_cons, List.not_mem_nil, or_false] at hs
      rcases hs with rfl | rfl | rfl
      · refine ⟨0, 0, by norm_num, by norm_num, by norm_num, ?_⟩
        intro i j hi hj
        interval_cases i <;> interval_cases j <;> simp [gridGet, h0]
      · refine ⟨2, 0, by norm_num, by norm_num, by norm_num, ?_⟩
        intro i j hi hj
        interval_cases i <;> interval_cases j <;> simp [gridGet, h0]
      · refine ⟨1, 1, by norm_num, by norm_num, by norm_num, ?_⟩
        intro i j hi hj
        interval_cases i <;> interval_cases j <;> simp [gridGet, h0]
    · rw [hsucc]
      simp [gridGet, gridSet, h0]
  · simp only [List.mem_cons, List.not_mem_nil, or_false, not_or] at hnot
    refine ⟨1, 1, hfz, by norm_num, by norm_num, by simp [gridGet, h0],
      by rw [hsucc]; norm_num, by rw [hsucc]; norm_num, by rw [hsucc]; norm_num,
      ?_, ?_, ?_⟩
    · rw [hsucc]
      intro hmem
      simp only [List.mem_cons, List.not_mem_nil, or_false] at hmem
      rcases hmem with h | h | h | h <;> simp_all
    · rw [hsucc]
      intro s hs
      simp only [List.mem_cons, List.not_mem_nil, or_false] at hs
      rcases hs with rfl | rfl | rfl | rfl
      · refine ⟨0, 1, by norm_num, by norm_num, by norm_num, ?_⟩
        intro i j hi hj
        interval_cases i <;> interval_cases j <;> simp [gridGet, h0]
      · refine ⟨2, 1, by norm_num, by norm_num, by norm_num, ?_⟩
        intro i j hi hj
        interval_cases i <;> interval_cases j <;> simp [gridGet, h0]
      · refine ⟨1, 0, by norm_num, by norm_num, by norm_num, ?_⟩
        intro i j hi hj
        interval_cases i <;> interval_cases j <;> simp [gridGet, h0]
      · refine ⟨1, 2, by norm_num, by norm_num, by norm_num, ?_⟩
        intro i j hi hj
        interval_cases i <;> interval_cases j <;> simp [gridGet, h0]
    · rw [hsucc]
      simp [gridGet, gridSet, h0]
  · simp only [List.mem_cons, List.not_mem_nil, or_false, not_or] at hnot
    refine ⟨1, 2, hfz, by norm_num, by norm_num, by simp [gridGet, h0],
      by rw [hsucc]; norm_num, by rw [hsucc]; norm_num, by rw [hsucc]; norm_num,
      ?_, ?_, ?_⟩
    · rw [hsucc]
      intro hmem
      simp only [List.mem_cons, List.not_mem_nil, or_false] at hmem
      rcases hmem with h | h | h <;> simp_all
    · rw [hsucc]
      intro s hs
      simp only [List.mem_cons, List.not_mem_nil, or_false] at hs
      rcases hs with rfl | rfl | rfl
      · refine ⟨0, 2, by norm_num, by norm_num, by norm_num, ?_⟩
        intro i j hi hj
        interval_cases i <;> interval_cases j <;> simp [gridGet, h0]
      · refine ⟨2, 2, by norm_num, by norm_num, by norm_num, ?_⟩
        intro i j hi hj
        interval_cases i <;> interval_cases j <;> simp [gridGet, h0]
      · refine ⟨1, 1, by norm_num, by norm_num, by norm_num, ?_⟩
        intro i j hi hj
        interval_cases i <;> interval_cases j <;> simp [gridGet, h0]
    · rw [hsucc]
      simp [gridGet, gridSet, h0]
  · simp only [List.mem_cons, List.not_mem_nil, or_false, not_or] at hnot
    refine ⟨2, 0, hfz, by norm_num, by norm_num, by simp [gridGet, h0],
      by rw [hsucc]; norm_num, by rw [hsucc]; norm_num, by rw [hsucc]; norm_num,
      ?_, ?_, ?_⟩
    · rw [hsucc]
      intro hmem
      simp only [List.mem_cons, List.not_mem_nil, or_false] at hmem
      rcases hmem with h | h <;> simp_all
    · rw [hsucc]
      intro s hs
      simp only [List.mem_cons, List.not_mem_nil, or_false] at hs
      rcases hs with rfl | rfl
      · refine ⟨1, 0, by norm_num, by norm_num, by norm_num, ?_⟩
        intro i j hi hj
        interval_cases i <;> interval_cases j <;> simp [gridGet, h0]
      · refine ⟨2, 1, by norm_num, by norm_num, by norm_num, ?_⟩
        intro i j hi hj
        interval_cases i <;> interval_cases j <;> simp [gridGet, h0]
    · rw [hsucc]
      simp [gridGet, gridSet, h0]
  · simp only [List.mem_cons, List.not_mem_nil, or_false, not_or] at hnot
    refine ⟨2, 1, hfz, by norm_num, by norm_num, by simp [gridGet, h0],
      by rw [hsucc]; norm_num, by rw [hsucc]; norm_num, by rw [hsucc]; norm_num,
      ?_, ?_, ?_⟩
    · rw [hsucc]
      intro hmem
      simp only [List.mem_cons, List.not_mem_nil, or_false] at hmem
      rcases hmem with h | h | h <;> simp_all
    · rw [hsucc]
      intro s hs
      simp only [List.mem_cons, List.not_mem_nil, or_false] at hs
      rcases hs with rfl | rfl | rfl
      · refine ⟨1, 1, by norm_num, by norm_num, by norm_num, ?_⟩
        intro i j hi hj
        interval_cases i <;> interval_cases j <;> simp [gridGet, h0]
      · refine ⟨2, 0, by norm_num, by norm_num, by norm_num, ?_⟩
        intro i j hi hj
        interval_cases i <;> interval_cases j <;> simp [gridGet, h0]
      · refine ⟨2, 2, by norm_num, by norm_num, by norm_num, ?_⟩
        intro i j hi hj
        interval_cases i <;> interval_cases j <;> simp [gridGet, h0]
    · rw [hsucc]
      simp [gridGet, gridSet, h0]
  · simp only [List.mem_cons, List.not_mem_nil, or_false, not_or] at hnot
    refine ⟨2, 2, hfz, by norm_num, by norm_num, by simp [gridGet, h0],
      by rw [hsucc]; norm_num, by rw [hsucc]; norm_num, by rw [hsucc]; norm_num,
      ?_, ?_, ?_⟩
    · rw [hsucc]
      intro hmem
      simp only [List.mem_cons, List.not_mem_nil, or_false] at hmem
      rcases hmem with h | h <;> simp_all
    · rw [hsucc]
      intro s hs
      simp only [List.mem_cons, List.not_mem_nil, or_false] at hs
      rcases hs with rfl | rfl
      · refine ⟨1, 2, by norm_num, by norm_num, by norm_num, ?_⟩
        intro i j hi hj
        interval_cases i <;> interval_cases j <;> simp [gridGet, h0]
      · refine ⟨2, 1, by norm_num, by norm_num, by norm_num, ?_⟩
        intro i j hi hj
        interval_cases i <;> interval_cases j <;> simp [gridGet, h0]
    · rw [hsucc]
      simp [gridGet, gridSet, h0]


/-- Witness for C8 at the goal grid (blank in the top-left corner). -/
theorem c8_witness :
    ValidGrid get_goal_state_puzzle ∧
    (∃ bi bj, find_zero get_goal_state_puzzle = some (bi, bj) ∧ bi < 3 ∧ bj < 3 ∧
      gridGet get_goal_state_puzzle bi bj = 0 ∧
      2 ≤ (generate_successors get_goal_state_puzzle).length ∧
      (generate_successors get_goal_state_puzzle).length ≤ 4 ∧
      (generate_successors get_goal_state_puzzle).length =
        2 + (if bi = 1 then 1 else 0) + (if bj = 1 then 1 else 0) ∧
      get_goal_state_puzzle ∉ generate_successors get_goal_state_puzzle ∧
      (∀ s ∈ generate_successors get_goal_state_puzzle, ∃ i2 j2 : ℕ, i2 < 3 ∧ j2 < 3 ∧
        ((bi : ℤ) - (i2 : ℤ)).natAbs + ((bj : ℤ) - (j2 : ℤ)).natAbs = 1 ∧
        (∀ i j, i < 3 → j < 3 →
          gridGet s i j = if i = bi ∧ j = bj then gridGet get_goal_state_puzzle i2 j2
            else if i = i2 ∧ j = j2 then 0 else gridGet get_goal_state_puzzle i j)) ∧
      generate_successors get_goal_state_puzzle =
        (([((bi : ℤ) - 1, (bj : ℤ)), ((bi : ℤ) + 1, (bj : ℤ)),
           ((bi : ℤ), (bj : ℤ) - 1), ((bi : ℤ), (bj : ℤ) + 1)].filter
            (fun t => decide (0 ≤ t.1 ∧ t.1 < 3 ∧ 0 ≤ t.2 ∧ t.2 < 3))).map
          (fun t => gridSet (gridSet get_goal_state_puzzle bi bj
              (gridGet get_goal_state_puzzle t.1.toNat t.2.toNat))
            t.1.toNat t.2.toNat (gridGet get_goal_state_puzzle bi bj)))) :=
  ⟨by decide, c8_successors get_goal_state_puzzle (by decide)⟩

set_option maxHeartbeats 1600000 in
/-- Successor grids of a well-formed grid are well-formed. -/
theorem succ_valid {g s : Grid} (hv : ValidGrid g) (hs : s ∈ generate_successors g) :
    ValidGrid s := by
  have h9 := hv.2
  rcases succ_cases hv with ⟨a, b, c, d, e, f, p, q, r, rfl, hcase⟩
  have hfl : ([[a, b, c], [d, e, f], [p, q, r]] : Grid).flatten =
      [a, b, c, d, e, f, p, q, r] := by simp
  rw [hfl] at h9
  rcases hcase with ⟨h0, hnot, hfz, hsucc⟩ | ⟨h0, hnot, hfz, hsucc⟩ | ⟨h0, hnot, hfz, hsucc⟩ |
    ⟨h0, hnot, hfz, hsucc⟩ | ⟨h0, hnot, hfz, hsucc⟩ | ⟨h0, hnot, hfz, hsucc⟩ |
    ⟨h0, hnot, hfz, hsucc⟩ | ⟨h0, hnot, hfz, hsucc⟩ | ⟨h0, hnot, hfz, hsucc⟩
  · rw [hsucc] at hs
    simp only [List.mem_cons, List.not_mem_nil, or_false] at hs
    rcases hs with rfl | rfl <;>
      exact ⟨by simp, List.Perm.trans (List.perm_iff_count.mpr fun v => by
        simp [List.count_cons]; omega) h9⟩
  · rw [hsucc] at hs
    simp only [List.mem_cons, List.not_mem_nil, or_false] at hs
    rcases hs with rfl | rfl | rfl <;>
      exact ⟨by simp, List.Perm.trans (List.perm_iff_count.mpr fun v => by
        simp [List.count_cons]; omega) h9⟩
  · rw [hsucc] at hs
    simp only [List.mem_cons, List.not_mem_nil, or_false] at hs
    rcases hs with rfl | rfl <;>
      exact ⟨by simp, List.Perm.trans (List.perm_iff_count.mpr fun v => by
        simp [List.count_cons]; omega) h9⟩
  · rw [hsucc] at hs
    simp only [List.mem_cons, List.not_mem_nil, or_false] at hs
    rcases hs with rfl | rfl | rfl <;>
      exact ⟨by simp, List.Perm.trans (List.perm_iff_count.mpr fun v => by
        simp [List.count_cons]; omega) h9⟩
  · rw [hsucc] at hs
    simp only [List.mem_cons, List.not_mem_nil, or_false] at hs
    rcases hs with rfl | rfl | rfl | rfl <;>
      exact ⟨by simp, List.Perm.trans (List.perm_iff_count.mpr fun v => by
        simp [List.count_cons]; omega) h9⟩
  · rw [hsucc] at hs
    simp only [List.mem_cons, List.not_mem_nil, or_false] at hs
    rcases hs with rfl | rfl | rfl <;>
      exact ⟨by simp, List.Perm.trans (List.perm_iff_count.mpr fun v => by
        simp [List.count_cons]; omega) h9⟩
  · rw [hsucc] at hs
    simp only [List.mem_cons, List.not_mem_nil, or_false] at hs
    rcases hs with rfl | rfl <;>
      exact ⟨by simp, List.Perm.trans (List.perm_iff_count.mpr fun v => by
        simp [List.count_cons]; omega) h9⟩
  · rw [hsucc] at hs
    simp only [List.mem_cons, List.not_mem_nil, or_false] at hs
    rcases hs with rfl | rfl | rfl <;>
      exact ⟨by simp, List.Perm.trans (List.perm_iff_count.mpr fun v => by
        simp [List.count_cons]; omega) h9⟩
  · rw [hsucc] at hs
    simp only [List.mem_cons, List.not_mem_nil, or_false] at hs
    rcases hs with rfl | rfl <;>
      exact ⟨by simp, List.Perm.trans (List.perm_iff_count.mpr fun v => by
        simp [List.count_cons]; omega) h9⟩

/-! ### Cell decompositions of the two heuristics against the canonical goal -/

theorem ite_acc (P : Prop) [Decidable P] (x w : ℕ) :
    (if P then x + w else x) = x + (if P then w else 0) := by split_ifs <;> omega

theorem foldl_shift (s : ℕ → ℕ → ℕ) (hs : ∀ a x, s a x = a + s 0 x) :
    ∀ (l : List ℕ) (a : ℕ), l.foldl s a = a + l.foldl s 0 := by
  intro l
  induction l with
  | nil => simp
  | cons x xs ih =>
    intro a
    rw [List.foldl_cons, List.foldl_cons, ih (s a x), ih (s 0 x), hs a x]
    omega

theorem doubleFold_sum {P : ℕ → ℕ → Prop} [∀ k l, Decidable (P k l)] {W : ℕ → ℕ → ℕ}
    (a : ℕ) :
    (List.range 3).foldl (fun acc k =>
        (List.range 3).foldl (fun acc l => if P k l then acc + W k l else acc) acc) a =
      a + ((if P 0 0 then W 0 0 else 0) + (if P 0 1 then W 0 1 else 0) +
        (if P 0 2 then W 0 2 else 0) + (if P 1 0 then W 1 0 else 0) +
        (if P 1 1 then W 1 1 else 0) + (if P 1 2 then W 1 2 else 0) +
        (if P 2 0 then W 2 0 else 0) + (if P 2 1 then W 2 1 else 0) +
        (if P 2 2 then W 2 2 else 0)) := by
  have hr : List.range 3 = [0, 1, 2] := rfl
  rw [hr]
  simp only [List.foldl_cons, List.foldl_nil, ite_acc]
  omega

/-- One cell of `calc_hamming_distance`: tile value `v` sitting where the goal
holds `t`. -/
def hamT (v t : ℕ) : ℕ := if v ≠ t ∧ v ≠ 0 then 1 else 0

/-- The inner `k, l` double loop of `calc_manhattan_distance` for tile value
`v` at cell `(i, j)`, against the canonical goal. -/
def innerLoop (v i j : ℕ) : ℕ :=
  (List.range 3).foldl (fun acc k =>
    (List.range 3).foldl (fun acc l =>
      if gridGet get_goal_state_puzzle k l = v then
        acc + (((k : ℤ) - (i : ℤ)).natAbs + ((j : ℤ) - (l : ℤ)).natAbs)
      else acc) acc) 0

/-- One cell of `calc_manhattan_distance`: tile value `v` at cell `(i, j)`
where the goal holds `t`. -/
def mT (v t i j : ℕ) : ℕ := if t ≠ v ∧ t ≠ 0 then innerLoop v i j else 0


theorem ham_explicit (a b c d e f p q r : ℕ) :
    calc_hamming_distance [[a, b, c], [d, e, f], [p, q, r]] get_goal_state_puzzle =
      hamT a 0 + hamT b 1 + hamT c 2 + hamT d 3 + hamT e 4 + hamT f 5 +
      hamT p 6 + hamT q 7 + hamT r 8 := by
  rw [calc_hamming_distance, doubleFold_sum]
  simp only [show gridGet [[a, b, c], [d, e, f], [p, q, r]] 0 0 = a from rfl,
    show gridGet [[a, b, c], [d, e, f], [p, q, r]] 0 1 = b from rfl,
    show gridGet [[a, b, c], [d, e, f], [p, q, r]] 0 2 = c from rfl,
    show gridGet [[a, b, c], [d, e, f], [p, q, r]] 1 0 = d from rfl,
    show gridGet [[a, b, c], [d, e, f], [p, q, r]] 1 1 = e from rfl,
    show gridGet [[a, b, c], [d, e, f], [p, q, r]] 1 2 = f from rfl,
    show gridGet [[a, b, c], [d, e, f], [p, q, r]] 2 0 = p from rfl,
    show gridGet [[a, b, c], [d, e, f], [p, q, r]] 2 1 = q from rfl,
    show gridGet [[a, b, c], [d, e, f], [p, q, r]] 2 2 = r from rfl,
    show gridGet get_goal_state_puzzle 0 0 = 0 from rfl,
    show gridGet get_goal_state_puzzle 0 1 = 1 from rfl,
    show gridGet get_goal_state_puzzle 0 2 = 2 from rfl,
    show gridGet get_goal_state_puzzle 1 0 = 3 from rfl,
    show gridGet get_goal_state_puzzle 1 1 = 4 from rfl,
    show gridGet get_goal_state_puzzle 1 2 = 5 from rfl,
    show gridGet get_goal_state_puzzle 2 0 = 6 from rfl,
    show gridGet get_goal_state_puzzle 2 1 = 7 from rfl,
    show gridGet get_goal_state_puzzle 2 2 = 8 from rfl]
  simp only [hamT]
  omega

theorem manh_explicit (a b c d e f p q r : ℕ) :
    calc_manhattan_distance [[a, b, c], [d, e, f], [p, q, r]] get_goal_state_puzzle =
      mT b 1 0 1 + mT c 2 0 2 + mT d 3 1 0 + mT e 4 1 1 + mT f 5 1 2 +
      mT p 6 2 0 + mT q 7 2 1 + mT r 8 2 2 := by
  rw [calc_manhattan_distance]
  have hlen : ([[a, b, c], [d, e, f], [p, q, r]] : Grid).length = 3 := rfl
  have hlen2 : (get_goal_state_puzzle : Grid).length = 3 := rfl
  rw [hlen, hlen2]
  simp only [doubleFold_sum, zero_add]
  simp only [mT, innerLoop, doubleFold_sum, zero_add]
  simp only [show gridGet [[a, b, c], [d, e, f], [p, q, r]] 0 0 = a from rfl,
    show gridGet [[a, b, c], [d, e, f], [p, q, r]] 0 1 = b from rfl,
    show gridGet [[a, b, c], [d, e, f], [p, q, r]] 0 2 = c from rfl,
    show gridGet [[a, b, c], [d, e, f], [p, q, r]] 1 0 = d from rfl,
    show gridGet [[a, b, c], [d, e, f], [p, q, r]] 1 1 = e from rfl,
    show gridGet [[a, b, c], [d, e, f], [p, q, r]] 1 2 = f from rfl,
    show gridGet [[a, b, c], [d, e, f], [p, q, r]] 2 0 = p from rfl,
    show gridGet [[a, b, c], [d, e, f], [p, q, r]] 2 1 = q from rfl,
    show gridGet [[a, b, c], [d, e, f], [p, q, r]] 2 2 = r from rfl,
    show gridGet get_goal_state_puzzle 0 0 = 0 from rfl,
    show gridGet get_goal_state_puzzle 0 1 = 1 from rfl,
    show gridGet get_goal_state_puzzle 0 2 = 2 from rfl,
    show gridGet get_goal_state_puzzle 1 0 = 3 from rfl,
    show gridGet get_goal_state_puzzle 1 1 = 4 from rfl,
    show gridGet get_goal_state_puzzle 1 2 = 5 from rfl,
    show gridGet get_goal_state_puzzle 2 0 = 6 from rfl,
    show gridGet get_goal_state_puzzle 2 1 = 7 from rfl,
    show gridGet get_goal_state_puzzle 2 2 = 8 from rfl]
  simp only [ne_eq, OfNat.ofNat_ne_zero, not_false_eq_true, and_true, one_ne_zero,
    not_true, and_false, if_false, ite_false]
  omega

theorem hamT_le_one (v t : ℕ) : hamT v t ≤ 1 := by
  unfold hamT
  split <;> omega

theorem hamT_zero (t : ℕ) : hamT 0 t = 0 := by simp [hamT]

theorem hamT_le_mT (v t i j : ℕ) (hv9 : v < 9) (htij : t = 3 * i + j) (hi : i < 3)
    (hj : j < 3) (ht0 : t ≠ 0) : hamT v t ≤ mT v t i j := by
  subst htij
  interval_cases i <;> interval_cases j <;> (try simp at ht0) <;>
    interval_cases v <;> decide


/-- C7: over every well-formed grid, the Hamming count never exceeds the value
computed by `calc_manhattan_distance` (each counted cell contributes at least 1
to some Manhattan term; the displaced blank, which the code charges, covers the
tile parked on the goal blank cell, which the code skips). -/
theorem c7_dominance (g : Grid) (hv : ValidGrid g) :
    calc_hamming_distance g get_goal_state_puzzle ≤
      calc_manhattan_distance g get_goal_state_puzzle := by
  obtain ⟨a, b, c, d, e, f, p, q, r, rfl, hcase⟩ := succ_cases hv
  have hlt := valid_entry_lt hv
  have ha9 : a < 9 := hlt a (by simp)
  have hb9 : b < 9 := hlt b (by simp)
  have hc9 : c < 9 := hlt c (by simp)
  have hd9 : d < 9 := hlt d (by simp)
  have he9 : e < 9 := hlt e (by simp)
  have hf9 : f < 9 := hlt f (by simp)
  have hp9 : p < 9 := hlt p (by simp)
  have hq9 : q < 9 := hlt q (by simp)
  have hr9 : r < 9 := hlt r (by simp)
  rw [ham_explicit, manh_explicit]
  rcases hcase with ⟨h0, -, -, -⟩ | ⟨h0, -, -, -⟩ | ⟨h0, -, -, -⟩ | ⟨h0, -, -, -⟩ |
    ⟨h0, -, -, -⟩ | ⟨h0, -, -, -⟩ | ⟨h0, -, -, -⟩ | ⟨h0, -, -, -⟩ | ⟨h0, -, -, -⟩
  · have hB0 := hamT_le_mT b 1 0 1 hb9 (by norm_num) (by norm_num) (by norm_num) (by norm_num)
    have hB1 := hamT_le_mT c 2 0 2 hc9 (by norm_num) (by norm_num) (by norm_num) (by norm_num)
    have hB2 := hamT_le_mT d 3 1 0 hd9 (by norm_num) (by norm_num) (by norm_num) (by norm_num)
    have hB3 := hamT_le_mT e 4 1 1 he9 (by norm_num) (by norm_num) (by norm_num) (by norm_num)
    have hB4 := hamT_le_mT f 5 1 2 hf9 (by norm_num) (by norm_num) (by norm_num) (by norm_num)
    have hB5 := hamT_le_mT p 6 2 0 hp9 (by norm_num) (by norm_num) (by norm_num) (by norm_num)
    have hB6 := hamT_le_mT q 7 2 1 hq9 (by norm_num) (by norm_num) (by norm_num) (by norm_num)
    have hB7 := hamT_le_mT r 8 2 2 hr9 (by norm_num) (by norm_num) (by norm_num) (by norm_num)
    simp only [h0, hamT_zero]
    omega
  · have hB0 := hamT_le_mT c 2 0 2 hc9 (by norm_num) (by norm_num) (by norm_num) (by norm_num)
    have hB1 := hamT_le_mT d 3 1 0 hd9 (by norm_num) (by norm_num) (by norm_num) (by norm_num)
    have hB2 := hamT_le_mT e 4 1 1 he9 (by norm_num) (by norm_num) (by norm_num) (by norm_num)
    have hB3 := hamT_le_mT f 5 1 2 hf9 (by norm_num) (by norm_num) (by norm_num) (by norm_num)
    have hB4 := hamT_le_mT p 6 2 0 hp9 (by norm_num) (by norm_num) (by norm_num) (by norm_num)
    have hB5 := hamT_le_mT q 7 2 1 hq9 (by norm_num) (by norm_num) (by norm_num) (by norm_num)
    have hB6 := hamT_le_mT r 8 2 2 hr9 (by norm_num) (by norm_num) (by norm_num) (by norm_num)
    have hbl : mT 0 1 0 1 = 1 := by decide
    have hA := hamT_le_one a 0
    simp only [h0, hamT_zero]
    omega
  · have hB0 := hamT_le_mT b 1 0 1 hb9 (by norm_num) (by norm_num) (by norm_num) (by norm_num)
    have hB1 := hamT_le_mT d 3 1 0 hd9 (by norm_num) (by norm_num) (by norm_num) (by norm_num)
    have hB2 := hamT_le_mT e 4 1 1 he9 (by norm_num) (by norm_num) (by norm_num) (by norm_num)
    have hB3 := hamT_le_mT f 5 1 2 hf9 (by norm_num) (by norm_num) (by norm_num) (by norm_num)
    have hB4 := hamT_le_mT p 6 2 0 hp9 (by norm_num) (by norm_num) (by norm_num) (by norm_num)
    have hB5 := hamT_le_mT q 7 2 1 hq9 (by norm_num) (by norm_num) (by norm_num) (by norm_num)
    have hB6 := hamT_le_mT r 8 2 2 hr9 (by norm_num) (by norm_num) (by norm_num) (by norm_num)
    have hbl : mT 0 2 0 2 = 2 := by decide
    have hA := hamT_le_one a 0
    simp only [h0, hamT_zero]
    omega
  · have hB0 := hamT_le_mT b 1 0 1 hb9 (by norm_num) (by norm_num) (by norm_num) (by norm_num)
    have hB1 := hamT_le_mT c 2 0 2 hc9 (by norm_num) (by norm_num) (by norm_num) (by norm_num)
    have hB2 := hamT_le_mT e 4 1 1 he9 (by norm_num) (by norm_num) (by norm_num) (by norm_num)
    have hB3 := hamT_le_mT f 5 1 2 hf9 (by norm_num) (by norm_num) (by norm_num) (by norm_num)
    have hB4 := hamT_le_mT p 6 2 0 hp9 (by norm_num) (by norm_num) (by norm_num) (by norm_num)
    have hB5 := hamT_le_mT q 7 2 1 hq9 (by norm_num) (by norm_num) (by norm_num) (by norm_num)
    have hB6 := hamT_le_mT r 8 2 2 hr9 (by norm_num) (by norm_num) (by norm_num) (by norm_num)
    have hbl : mT 0 3 1 0 = 1 := by decide
    have hA := hamT_le_one a 0
    simp only [h0, hamT_zero]
    omega
  · have hB0 := hamT_le_mT b 1 0 1 hb9 (by norm_num) (by norm_num) (by norm_num) (by norm_num)
    have hB1 := hamT_le_mT c 2 0 2 hc9 (by norm_num) (by norm_num) (by norm_num) (by norm_num)
    have hB2 := hamT_le_mT d 3 1 0 hd9 (by norm_num) (by norm_num) (by norm_num) (by norm_num)
    have hB3 := hamT_le_mT f 5 1 2 hf9 (by norm_num) (by norm_num) (by norm_num) (by norm_num)
    have hB4 := hamT_le_mT p 6 2 0 hp9 (by norm_num) (by norm_num) (by norm_num) (by norm_num)
    have hB5 := hamT_le_mT q 7 2 1 hq9 (by norm_num) (by norm_num) (by norm_num) (by norm_num)
    have hB6 := hamT_le_mT r 8 2 2 hr9 (by norm_num) (by norm_num) (by norm_num) (by norm_num)
    have hbl : mT 0 4 1 1 = 2 := by decide
    have hA := hamT_le_one a 0
    simp only [h0, hamT_zero]
    omega
  · have hB0 := hamT_le_mT b 1 0 1 hb9 (by norm_num) (by norm_num) (by norm_num) (by norm_num)
    have hB1 := hamT_le_mT c 2 0 2 hc9 (by norm_num) (by norm_num) (by norm_num) (by norm_num)
    have hB2 := hamT_le_mT d 3 1 0 hd9 (by norm_num) (by norm_num) (by norm_num) (by norm_num)
    have hB3 := hamT_le_mT e 4 1 1 he9 (by norm_num) (by norm_num) (by norm_num) (by norm_num)
    have hB4 := hamT_le_mT p 6 2 0 hp9 (by norm_num) (by norm_num) (by norm_num) (by norm_num)
    have hB5 := hamT_le_mT q 7 2 1 hq9 (by norm_num) (by norm_num) (by norm_num) (by norm_num)
    have hB6 := hamT_le_mT r 8 2 2 hr9 (by norm_num) (by norm_num) (by norm_num) (by norm_num)
    have hbl : mT 0 5 1 2 = 3 := by decide
    have hA := hamT_le_one a 0
    simp only [h0, hamT_zero]
    omega
  · have hB0 := hamT_le_mT b 1 0 1 hb9 (by norm_num) (by norm_num) (by norm_num) (by norm_num)
    have hB1 := hamT_le_mT c 2 0 2 hc9 (by norm_num) (by norm_num) (by norm_num) (by norm_num)
    have hB2 := hamT_le_mT d 3 1 0 hd9 (by norm_num) (by norm_num) (by norm_num) (by norm_num)
    have hB3 := hamT_le_mT e 4 1 1 he9 (by norm_num) (by norm_num) (by norm_num) (by norm_num)
    have hB4 := hamT_le_mT f 5 1 2 hf9 (by norm_num) (by norm_num) (by norm_num) (by norm_num)
    have hB5 := hamT_le_mT q 7 2 1 hq9 (by norm_num) (by norm_num) (by norm_num) (by norm_num)
    have hB6 := hamT_le_mT r 8 2 2 hr9 (by norm_num) (by norm_num) (by norm_num) (by norm_num)
    have hbl : mT 0 6 2 0 = 2 := by decide
    have hA := hamT_le_one a 0
    simp only [h0, hamT_zero]
    omega
  · have hB0 := hamT_le_mT b 1 0 1 hb9 (by norm_num) (by norm_num) (by norm_num) (by norm_num)
    have hB1 := hamT_le_mT c 2 0 2 hc9 (by norm_num) (by norm_num) (by norm_num) (by norm_num)
    have hB2 := hamT_le_mT d 3 1 0 hd9 (by norm_num) (by norm_num) (by norm_num) (by norm_num)
    have hB3 := hamT_le_mT e 4 1 1 he9 (by norm_num) (by norm_num) (by norm_num) (by norm_num)
    have hB4 := hamT_le_mT f 5 1 2 hf9 (by norm_num) (by norm_num) (by norm_num) (by norm_num)
    have hB5 := hamT_le_mT p 6 2 0 hp9 (by norm_num) (by norm_num) (by norm_num) (by norm_num)
    have hB6 := hamT_le_mT r 8 2 2 hr9 (by norm_num) (by norm_num) (by norm_num) (by norm_num)
    have hbl : mT 0 7 2 1 = 3 := by decide
    have hA := hamT_le_one a 0
    simp only [h0, hamT_zero]
    omega
  · have hB0 := hamT_le_mT b 1 0 1 hb9 (by norm_num) (by norm_num) (by norm_num) (by norm_num)
    have hB1 := hamT_le_mT c 2 0 2 hc9 (by norm_num) (by norm_num) (by norm_num) (by norm_num)
    have hB2 := hamT_le_mT d 3 1 0 hd9 (by norm_num) (by norm_num) (by norm_num) (by norm_num)
    have hB3 := hamT_le_mT e 4 1 1 he9 (by norm_num) (by norm_num) (by norm_num) (by norm_num)
    have hB4 := hamT_le_mT f 5 1 2 hf9 (by norm_num) (by norm_num) (by norm_num) (by norm_num)
    have hB5 := hamT_le_mT p 6 2 0 hp9 (by norm_num) (by norm_num) (by norm_num) (by norm_num)
    have hB6 := hamT_le_mT q 7 2 1 hq9 (by norm_num) (by norm_num) (by norm_num) (by norm_num)
    have hbl : mT 0 8 2 2 = 4 := by decide
    have hA := hamT_le_one a 0
    simp only [h0, hamT_zero]
    omega

/-- Witness for C7 at a concrete well-formed grid. -/
theorem c7_witness :
    ValidGrid [[1, 2, 3], [4, 0, 5], [6, 7, 8]] ∧
    calc_hamming_distance [[1, 2, 3], [4, 0, 5], [6, 7, 8]] get_goal_state_puzzle ≤
      calc_manhattan_distance [[1, 2, 3], [4, 0, 5], [6, 7, 8]] get_goal_state_puzzle :=
  ⟨by decide, c7_dominance [[1, 2, 3], [4, 0, 5], [6, 7, 8]] (by decide)⟩


/-! ### Reachability facts and the Hamming heuristic -/

theorem reachesIn_zero_eq {s t : Grid} (h : ReachesIn s 0 t) : t = s := by
  cases h
  rfl

theorem reachesIn_one_mem {s t : Grid} (h : ReachesIn s 1 t) :
    t ∈ generate_successors s := by
  cases h with
  | step hr hs =>
    cases hr
    exact hs

theorem valid_reach {g x : Grid} {n : ℕ} (hv : ValidGrid g) (h : ReachesIn g n x) :
    ValidGrid x := by
  induction h with
  | refl => exact hv
  | step hr hs ih => exact succ_valid ih hs

/-- C3 (divergence): on `[[3,1,2],[6,4,5],[0,7,8]]` the code computes Manhattan
value 3, but the goal is exactly 2 moves away (and not 0 or 1 moves), so
`calc_manhattan_distance` overestimates the true remaining cost: it is not
admissible. -/
theorem c3_manhattan_inadmissible :
    calc_manhattan_distance [[3, 1, 2], [6, 4, 5], [0, 7, 8]] get_goal_state_puzzle = 3 ∧
    ReachesIn [[3, 1, 2], [6, 4, 5], [0, 7, 8]] 2 get_goal_state_puzzle ∧
    ¬ ReachesIn [[3, 1, 2], [6, 4, 5], [0, 7, 8]] 0 get_goal_state_puzzle ∧
    ¬ ReachesIn [[3, 1, 2], [6, 4, 5], [0, 7, 8]] 1 get_goal_state_puzzle := by
  refine ⟨by rfl, ?_, ?_, ?_⟩
  · exact @ReachesIn.step [[3, 1, 2], [6, 4, 5], [0, 7, 8]] 1
      [[3, 1, 2], [0, 4, 5], [6, 7, 8]] get_goal_state_puzzle
      (@ReachesIn.step [[3, 1, 2], [6, 4, 5], [0, 7, 8]] 0
        [[3, 1, 2], [6, 4, 5], [0, 7, 8]] [[3, 1, 2], [0, 4, 5], [6, 7, 8]]
        ReachesIn.refl (by decide)) (by decide)
  · intro h
    exact absurd (reachesIn_zero_eq h) (by decide)
  · intro h
    have hm := reachesIn_one_mem h
    revert hm
    decide

/-- Moving one tile changes the Hamming count by at most one, in particular
`hamming(g) <= hamming(s) + 1` for every successor `s` (consistency). -/
theorem ham_consistent {g s : Grid} (hv : ValidGrid g) (hs : s ∈ generate_successors g) :
    calc_hamming_distance g get_goal_state_puzzle ≤
      calc_hamming_distance s get_goal_state_puzzle + 1 := by
  obtain ⟨a, b, c, d, e, f, p, q, r, rfl, hcase⟩ := succ_cases hv
  rcases hcase with ⟨h0, -, -, hsucc⟩ | ⟨h0, -, -, hsucc⟩ | ⟨h0, -, -, hsucc⟩ |
    ⟨h0, -, -, hsucc⟩ | ⟨h0, -, -, hsucc⟩ | ⟨h0, -, -, hsucc⟩ |
    ⟨h0, -, -, hsucc⟩ | ⟨h0, -, -, hsucc⟩ | ⟨h0, -, -, hsucc⟩ <;>
    rw [hsucc] at hs <;>
    simp only [List.mem_cons, List.not_mem_nil, or_false] at hs
  · rcases hs with rfl | rfl
    · rw [ham_explicit, ham_explicit]
      have hA := hamT_le_one d 3
      simp only [h0, hamT_zero]
      omega
    · rw [ham_explicit, ham_explicit]
      have hA := hamT_le_one b 1
      simp only [h0, hamT_zero]
      omega
  · rcases hs with rfl | rfl | rfl
    · rw [ham_explicit, ham_explicit]
      have hA := hamT_le_one e 4
      simp only [h0, hamT_zero]
      omega
    · rw [ham_explicit, ham_explicit]
      have hA := hamT_le_one a 0
      simp only [h0, hamT_zero]
      omega
    · rw [ham_explicit, ham_explicit]
      have hA := hamT_le_one c 2
      simp only [h0, hamT_zero]
      omega
  · rcases hs with rfl | rfl
    · rw [ham_explicit, ham_explicit]
      have hA := hamT_le_one f 5
      simp only [h0, hamT_zero]
      omega
    · rw [ham_explicit, ham_explicit]
      have hA := hamT_le_one b 1
      simp only [h0, hamT_zero]
      omega
  · rcases hs with rfl | rfl | rfl
    · rw [ham_explicit, ham_explicit]
      have hA := hamT_le_one a 0
      simp only [h0, hamT_zero]
      omega
    · rw [ham_explicit, ham_explicit]
      have hA := hamT_le_one p 6
      simp only [h0, hamT_zero]
      omega
    · rw [ham_explicit, ham_explicit]
      have hA := hamT_le_one e 4
      simp only [h0, hamT_zero]
      omega
  · rcases hs with rfl | rfl | rfl | rfl
    · rw [ham_explicit, ham_explicit]
      have hA := hamT_le_one b 1
      simp only [h0, hamT_zero]
      omega
    · rw [ham_explicit, ham_explicit]
      have hA := hamT_le_one q 7
      simp only [h0, hamT_zero]
      omega
    · rw [ham_explicit, ham_explicit]
      have hA := hamT_le_one d 3
      simp only [h0, hamT_zero]
      omega
    · rw [ham_explicit, ham_explicit]
      have hA := hamT_le_one f 5
      simp only [h0, hamT_zero]
      omega
  · rcases hs with rfl | rfl | rfl
    · rw [ham_explicit, ham_explicit]
      have hA := hamT_le_one c 2
      simp only [h0, hamT_zero]
      omega
    · rw [ham_explicit, ham_explicit]
      have hA := hamT_le_one r 8
      simp only [h0, hamT_zero]
      omega
    · rw [ham_explicit, ham_explicit]
      have hA := hamT_le_one e 4
      simp only [h0, hamT_zero]
      omega
  · rcases hs with rfl | rfl
    · rw [ham_explicit, ham_explicit]
      have hA := hamT_le_one d 3
      simp only [h0, hamT_zero]
      omega
    · rw [ham_explicit, ham_explicit]
      have hA := hamT_le_one q 7
      simp only [h0, hamT_zero]
      omega
  · rcases hs with rfl | rfl | rfl
    · rw [ham_explicit, ham_explicit]
      have hA := hamT_le_one e 4
      simp only [h0, hamT_zero]
      omega
    · rw [ham_explicit, ham_explicit]
      have hA := hamT_le_one p 6
      simp only [h0, hamT_zero]
      omega
    · rw [ham_explicit, ham_explicit]
      have hA := hamT_le_one r 8
      simp only [h0, hamT_zero]
      omega
  · rcases hs with rfl | rfl
    · rw [ham_explicit, ham_explicit]
      have hA := hamT_le_one f 5
      simp only [h0, hamT_zero]
      omega
    · rw [ham_explicit, ham_explicit]
      have hA := hamT_le_one q 7
      simp only [h0, hamT_zero]
      omega

/-- Along any move sequence the Hamming count drops by at most one per move. -/
theorem ham_le_reach {g x : Grid} {n : ℕ} (hv : ValidGrid g) (h : ReachesIn g n x) :
    calc_hamming_distance g get_goal_state_puzzle ≤
      n + calc_hamming_distance x get_goal_state_puzzle := by
  induction h with
  | refl => omega
  | step hr hs ih =>
    have hvx := valid_reach hv hr
    have hc := ham_consistent hvx hs
    omega

/-- Admissibility relative to the canonical goal: the heuristic never exceeds
the length of any move sequence reaching the goal. -/
def Admissible (heuristic : Grid → Grid → ℕ) : Prop :=
  ∀ g n, ValidGrid g → ReachesIn g n get_goal_state_puzzle →
    heuristic g get_goal_state_puzzle ≤ n

/-- Consistency relative to the canonical goal: one move changes the heuristic
by at most the move cost 1. -/
def Consistent (heuristic : Grid → Grid → ℕ) : Prop :=
  ∀ g s, ValidGrid g → s ∈ generate_successors g →
    heuristic g get_goal_state_puzzle ≤ heuristic s get_goal_state_puzzle + 1

theorem hamming_admissible : Admissible calc_hamming_distance := by
  intro g n hv h
  have hle := ham_le_reach hv h
  have hgoal : calc_hamming_distance get_goal_state_puzzle get_goal_state_puzzle = 0 := rfl
  omega

theorem hamming_consistent : Consistent calc_hamming_distance :=
  fun _ _ hv hs => ham_consistent hv hs


/-! ### Verification of the `heapq` translation -/

theorem perm_getD_cons_eraseIdx {α : Type} (d : α) :
    ∀ (l : List α) (k : ℕ), k < l.length → l.Perm (l.getD k d :: l.eraseIdx k) := by
  intro l
  induction l with
  | nil => intro k hk; simp at hk
  | cons hd tl ih =>
    intro k hk
    cases k with
    | zero => simp
    | succ k =>
      have hk2 : k < tl.length := by simpa using hk
      have h1 : (hd :: tl).Perm (hd :: (tl.getD k d :: tl.eraseIdx k)) := (ih k hk2).cons hd
      have h2 : (hd :: tl.getD k d :: tl.eraseIdx k).Perm
          (tl.getD k d :: hd :: tl.eraseIdx k) := List.Perm.swap _ _ _
      simpa using h1.trans h2

theorem set_perm_cons_eraseIdx {α : Type} (d : α) :
    ∀ (l : List α) (k : ℕ) (y : α), k < l.length → (l.set k y).Perm (y :: l.eraseIdx k) := by
  intro l
  induction l with
  | nil => intro k y hk; simp at hk
  | cons hd tl ih =>
    intro k y hk
    cases k with
    | zero => simp
    | succ k =>
      have hk2 : k < tl.length := by simpa using hk
      have h1 : (hd :: tl.set k y).Perm (hd :: (y :: tl.eraseIdx k)) := (ih k y hk2).cons hd
      have h2 : (hd :: y :: tl.eraseIdx k).Perm (y :: hd :: tl.eraseIdx k) :=
        List.Perm.swap _ _ _
      simpa using h1.trans h2

/-- Writing `l[j]` into slot `i` and then `y` into slot `j` permutes to simply
writing `y` into slot `i` (the two slots exchange contents). -/
theorem set_set_swap_perm {α : Type} (d : α) :
    ∀ (l : List α) (i j : ℕ) (y : α), i < l.length → j < l.length → i ≠ j →
      ((l.set i (l.getD j d)).set j y).Perm (l.set i y) := by
  intro l
  induction l with
  | nil => intro i j y hi; simp at hi
  | cons hd tl ih =>
    intro i j y hi hj hij
    cases i with
    | zero =>
      cases j with
      | zero => exact absurd rfl hij
      | succ k =>
        have hk : k < tl.length := by simpa using hj
        show (tl.getD k d :: tl.set k y).Perm (y :: tl)
        have h1 : (tl.getD k d :: tl.set k y).Perm (tl.getD k d :: (y :: tl.eraseIdx k)) :=
          (set_perm_cons_eraseIdx d tl k y hk).cons _
        have h2 : (tl.getD k d :: y :: tl.eraseIdx k).Perm
            (y :: tl.getD k d :: tl.eraseIdx k) := List.Perm.swap _ _ _
        have h3 : (y :: tl.getD k d :: tl.eraseIdx k).Perm (y :: tl) :=
          ((perm_getD_cons_eraseIdx d tl k hk).symm).cons y
        exact (h1.trans h2).trans h3
    | succ m =>
      cases j with
      | zero =>
        have hm : m < tl.length := by simpa using hi
        show (y :: tl.set m hd).Perm (hd :: tl.set m y)
        have h1 : (y :: tl.set m hd).Perm (y :: (hd :: tl.eraseIdx m)) :=
          (set_perm_cons_eraseIdx d tl m hd hm).cons _
        have h2 : (y :: hd :: tl.eraseIdx m).Perm (hd :: y :: tl.eraseIdx m) :=
          List.Perm.swap _ _ _
        have h3 : (hd :: y :: tl.eraseIdx m).Perm (hd :: tl.set m y) :=
          ((set_perm_cons_eraseIdx d tl m y hm).symm).cons hd
        exact (h1.trans h2).trans h3
      | succ k =>
        have hm : m < tl.length := by simpa using hi
        have hk : k < tl.length := by simpa using hj
        have hmk : m ≠ k := fun h => hij (by rw [h])
        show (hd :: (tl.set m (tl.getD k d)).set k y).Perm (hd :: tl.set m y)
        exact (ih m k y hm hk hmk).cons hd

/-- The binary-heap shape invariant used by `heapq`: every non-root slot is at
least its parent, comparing `f` values. -/
def HeapInv (l : List PuzzleState) : Prop :=
  ∀ i, 0 < i → i < l.length →
    (l.getD ((i - 1) / 2) PSdefault).f ≤ (l.getD i PSdefault).f

theorem heapInv_root_le {l : List PuzzleState} (hInv : HeapInv l) :
    ∀ i, i < l.length → (l.getD 0 PSdefault).f ≤ (l.getD i PSdefault).f := by
  intro i
  induction i using Nat.strong_induction_on with
  | _ i ih =>
    intro hi
    rcases Nat.eq_zero_or_pos i with rfl | hpos
    · exact Nat.le_refl _
    · have hp : (i - 1) / 2 < i := by omega
      exact Nat.le_trans (ih _ hp (by omega)) (hInv i hpos hi)

theorem mem_iff_getD {l : List PuzzleState} {y : PuzzleState} :
    y ∈ l ↔ ∃ i, i < l.length ∧ l.getD i PSdefault = y := by
  constructor
  · intro hy
    obtain ⟨i, hi, hget⟩ := List.mem_iff_getElem.mp hy
    exact ⟨i, hi, by rw [List.getD_eq_getElem _ _ hi]; exact hget⟩
  · rintro ⟨i, hi, rfl⟩
    rw [List.getD_eq_getElem _ _ hi]
    exact List.getElem_mem hi

theorem getD_set_self {α : Type} (d : α) (l : List α) (i : ℕ) (x : α) (hi : i < l.length) :
    (l.set i x).getD i d = x := by
  rw [List.getD_eq_getElem _ _ (by simpa using hi), List.getElem_set_self]

theorem getD_set_ne {α : Type} (d : α) (l : List α) (i j : ℕ) (x : α) (hij : i ≠ j) :
    (l.set i x).getD j d = l.getD j d := by
  by_cases hj : j < l.length
  · rw [List.getD_eq_getElem _ _ (by simpa using hj), List.getD_eq_getElem _ _ hj,
      List.getElem_set_ne hij]
  · rw [List.getD_eq_default _ _ (by simpa using Nat.le_of_not_lt hj),
      List.getD_eq_default _ _ (Nat.le_of_not_lt hj)]

/-- Correctness of the `_siftdown` loop (always called with `startpos = 0`):
if the heap property holds everywhere except possibly on edges incident to the
hole `pos`, and the hole's children dominate both `newitem` and the hole's
parent, then the loop restores the heap property, and the result is a
permutation of writing `newitem` straight into the hole. -/
theorem siftdownLoop_spec (newitem : PuzzleState) :
    ∀ (fuel : ℕ) (pos : ℕ) (l : List PuzzleState),
      pos < fuel → pos < l.length →
      (∀ i, 0 < i → i < l.length → i ≠ pos → (i - 1) / 2 ≠ pos →
        (l.getD ((i - 1) / 2) PSdefault).f ≤ (l.getD i PSdefault).f) →
      (∀ i, 0 < i → i < l.length → (i - 1) / 2 = pos →
        newitem.f ≤ (l.getD i PSdefault).f ∧
        (0 < pos → (l.getD ((pos - 1) / 2) PSdefault).f ≤ (l.getD i PSdefault).f)) →
      HeapInv (siftdownLoop newitem 0 fuel pos l) ∧
      (siftdownLoop newitem 0 fuel pos l).Perm (l.set pos newitem) := by
  intro fuel
  induction fuel with
  | zero => intro pos l hf; omega
  | succ fuel ih =>
    intro pos l hf hlen hA hB
    rw [siftdownLoop]
    by_cases hpos : 0 < pos
    · rw [if_pos hpos]
      by_cases hlt : newitem.f < (l.getD ((pos - 1) / 2) PSdefault).f
      · rw [if_pos hlt]
        have hpplt : (pos - 1) / 2 < pos := by omega
        have hset : ∀ j, j ≠ pos →
            ((l.set pos (l.getD ((pos - 1) / 2) PSdefault)).getD j PSdefault) =
              l.getD j PSdefault := fun j hj => getD_set_ne _ _ _ _ _ (fun h => hj h.symm)
        have hsetpos : (l.set pos (l.getD ((pos - 1) / 2) PSdefault)).getD pos PSdefault =
            l.getD ((pos - 1) / 2) PSdefault := getD_set_self _ _ _ _ hlen
        have hrec := ih ((pos - 1) / 2) (l.set pos (l.getD ((pos - 1) / 2) PSdefault))
          (by omega) (by rw [List.length_set]; omega) ?_ ?_
        · refine ⟨hrec.1, hrec.2.trans ?_⟩
          exact set_set_swap_perm PSdefault l pos ((pos - 1) / 2) newitem hlen
            (by omega) (by omega)
        · -- (a) for the shifted hole
          intro i hi0 hilen hine hpne
          rw [List.length_set] at hilen
          by_cases hipos : i = pos
          · subst hipos
            exact absurd rfl hpne
          · rw [hset i hipos]
            by_cases hpi : (i - 1) / 2 = pos
            · rw [hpi, hsetpos]
              exact (hB i hi0 hilen hpi).2 hpos
            · rw [hset _ hpi]
              exact hA i hi0 hilen hipos hpi
        · -- (b) for the shifted hole
          intro i hi0 hilen hpi
          rw [List.length_set] at hilen
          constructor
          · by_cases hipos : i = pos
            · subst hipos
              rw [hsetpos]
              exact Nat.le_of_lt hlt
            · rw [hset i hipos]
              have := hA i hi0 hilen hipos (by omega)
              rw [hpi] at this
              omega
          · intro hpp0
            have hppne : (pos - 1) / 2 ≠ pos := by omega
            have hple : (l.getD (((pos - 1) / 2 - 1) / 2) PSdefault).f ≤
                (l.getD ((pos - 1) / 2) PSdefault).f := by
              have := hA ((pos - 1) / 2) hpp0 (by omega) hppne (by omega)
              exact this
            rw [hset _ (by omega)]
            by_cases hipos : i = pos
            · subst hipos
              rw [hsetpos]
              exact hple
            · rw [hset i hipos]
              have h2 := hA i hi0 hilen hipos (by omega)
              rw [hpi] at h2
              omega
      · rw [if_neg hlt]
        refine ⟨?_, List.Perm.refl _⟩
        intro i hi0 hilen
        rw [List.length_set] at hilen
        by_cases hipos : i = pos
        · subst hipos
          rw [getD_set_self _ _ _ _ hlen, getD_set_ne _ _ _ _ _ (by omega)]
          omega
        · rw [getD_set_ne _ _ _ _ _ (fun h => hipos h.symm)]
          by_cases hpi : (i - 1) / 2 = pos
          · rw [hpi, getD_set_self _ _ _ _ hlen]
            exact (hB i hi0 hilen hpi).1
          · rw [getD_set_ne _ _ _ _ _ (fun h => hpi h.symm)]
            exact hA i hi0 hilen hipos hpi
    · rw [if_neg hpos]
      have hpos0 : pos = 0 := by omega
      subst hpos0
      refine ⟨?_, List.Perm.refl _⟩
      intro i hi0 hilen
      rw [List.length_set] at hilen
      have hine : i ≠ 0 := by omega
      rw [getD_set_ne _ _ _ _ _ (fun h => hine h.symm)]
      by_cases hpi : (i - 1) / 2 = 0
      · rw [hpi, getD_set_self _ _ _ _ hlen]
        exact (hB i hi0 hilen hpi).1
      · rw [getD_set_ne _ _ _ _ _ (fun h => hpi h.symm)]
        exact hA i hi0 hilen hine hpi

/-- Correctness of the `_siftup` descent loop: the hole travels to a childless
slot, promoting the smaller child at each step; heap-property side conditions
away from the hole are preserved, and filling the final hole with any `x` is a
permutation of filling the original hole with `x`. -/
theorem siftupLoop_spec :
    ∀ (fuel pos : ℕ) (l : List PuzzleState),
      l.length - pos ≤ fuel → pos < l.length →
      (∀ i, 0 < i → i < l.length → i ≠ pos → (i - 1) / 2 ≠ pos →
        (l.getD ((i - 1) / 2) PSdefault).f ≤ (l.getD i PSdefault).f) →
      (∀ i, 0 < i → i < l.length → (i - 1) / 2 = pos → 0 < pos →
        (l.getD ((pos - 1) / 2) PSdefault).f ≤ (l.getD i PSdefault).f) →
      (siftupLoop l.length fuel pos l).1 < l.length ∧
      (siftupLoop l.length fuel pos l).2.length = l.length ∧
      l.length ≤ 2 * (siftupLoop l.length fuel pos l).1 + 1 ∧
      (∀ i, 0 < i → i < l.length → i ≠ (siftupLoop l.length fuel pos l).1 →
        (i - 1) / 2 ≠ (siftupLoop l.length fuel pos l).1 →
        ((siftupLoop l.length fuel pos l).2.getD ((i - 1) / 2) PSdefault).f ≤
          ((siftupLoop l.length fuel pos l).2.getD i PSdefault).f) ∧
      (∀ x, ((siftupLoop l.length fuel pos l).2.set (siftupLoop l.length fuel pos l).1 x).Perm
        (l.set pos x)) := by
  intro fuel
  induction fuel with
  | zero =>
    intro pos l hf hlen hA hC
    exact ((by omega : False)).elim
  | succ fuel ih =>
    intro pos l hf hlen hA hC
    simp only [siftupLoop]
    by_cases hc : 2 * pos + 1 < l.length
    · rw [if_pos hc]
      set c2 := if 2 * pos + 1 + 1 < l.length ∧
          ¬ (l.getD (2 * pos + 1) PSdefault).f < (l.getD (2 * pos + 1 + 1) PSdefault).f then
            2 * pos + 1 + 1
          else 2 * pos + 1 with hc2def
      obtain ⟨hposc2, hc2len, hpc2⟩ : pos < c2 ∧ c2 < l.length ∧ (c2 - 1) / 2 = pos := by
        rw [hc2def]
        split_ifs with hsel
        · exact ⟨by omega, hsel.1, by omega⟩
        · exact ⟨by omega, hc, by omega⟩
      have hmin : ∀ o, 0 < o → o < l.length → (o - 1) / 2 = pos → o ≠ c2 →
          (l.getD c2 PSdefault).f ≤ (l.getD o PSdefault).f := by
        intro o ho0 ho hpo hone
        have ho12 : o = 2 * pos + 1 ∨ o = 2 * pos + 1 + 1 := by omega
        by_cases hsel : 2 * pos + 1 + 1 < l.length ∧
            ¬ (l.getD (2 * pos + 1) PSdefault).f < (l.getD (2 * pos + 1 + 1) PSdefault).f
        · have hc2v : c2 = 2 * pos + 1 + 1 := by rw [hc2def, if_pos hsel]
          have ho1 : o = 2 * pos + 1 := by omega
          rw [hc2v, ho1]
          have h2 := hsel.2
          omega
        · have hc2v : c2 = 2 * pos + 1 := by rw [hc2def, if_neg hsel]
          have ho2 : o = 2 * pos + 1 + 1 := by omega
          rw [hc2v, ho2]
          push_neg at hsel
          have hlt := hsel (by omega)
          omega
      set l2 := l.set pos (l.getD c2 PSdefault) with hl2def
      have hl2len : l2.length = l.length := by rw [hl2def, List.length_set]
      have hl2get : ∀ j, j ≠ pos → l2.getD j PSdefault = l.getD j PSdefault :=
        fun j hj => getD_set_ne _ _ _ _ _ (fun h => hj h.symm)
      have hl2pos : l2.getD pos PSdefault = l.getD c2 PSdefault :=
        getD_set_self _ _ _ _ hlen
      have hrec := ih c2 l2 (by rw [hl2len]; omega) (by rw [hl2len]; omega) ?_ ?_
      · rw [hl2len] at hrec
        refine ⟨hrec.1, hrec.2.1, hrec.2.2.1, hrec.2.2.2.1, fun x => ?_⟩
        refine (hrec.2.2.2.2 x).trans ?_
        rw [hl2def]
        exact set_set_swap_perm PSdefault l pos c2 x hlen hc2len (by omega)
      · intro i hi0 hilen hine hpne
        rw [hl2len] at hilen
        by_cases hipos : i = pos
        · rw [hipos] at hi0 ⊢
          have hppne : (pos - 1) / 2 ≠ pos := by omega
          rw [hl2get _ hppne, hl2pos]
          exact hC c2 (by omega) hc2len hpc2 hi0
        · rw [hl2get i hipos]
          by_cases hpi : (i - 1) / 2 = pos
          · rw [hpi, hl2pos]
            exact hmin i hi0 hilen hpi hine
          · rw [hl2get _ hpi]
            exact hA i hi0 hilen hipos hpi
      · intro i hi0 hilen hpi hc2pos
        rw [hl2len] at hilen
        have hipos : i ≠ pos := by omega
        have hic2 : i ≠ c2 := by omega
        rw [hl2get i hipos]
        rw [hpc2, hl2pos]
        have := hA i hi0 hilen hipos (by omega)
        rw [hpi] at this
        exact this
    · rw [if_neg hc]
      exact ⟨hlen, rfl, by omega, hA, fun x => List.Perm.refl _⟩


theorem set_append_len {α : Type} (l : List α) (x y : α) :
    (l ++ [x]).set l.length y = l ++ [y] := by
  induction l with
  | nil => rfl
  | cons hd tl ih => simpa [List.set] using ih

theorem getD_append_lt {α : Type} (d : α) (l l2 : List α) (i : ℕ) (hi : i < l.length) :
    (l ++ l2).getD i d = l.getD i d := by
  rw [List.getD_eq_getElem _ _ (by simp; omega), List.getD_eq_getElem _ _ hi,
    List.getElem_append_left hi]

/-- `heappush` preserves the heap invariant and adds exactly the new item. -/
theorem heappush_spec {l : List PuzzleState} (hInv : HeapInv l) (x : PuzzleState) :
    HeapInv (heappush l x) ∧ (heappush l x).Perm (x :: l) ∧
      (heappush l x).length = l.length + 1 := by
  have hspec := siftdownLoop_spec x (l ++ [x]).length l.length (l ++ [x])
    (by simp) (by simp) ?_ ?_
  · have hgoal : heappush l x =
        siftdownLoop x 0 (l ++ [x]).length l.length (l ++ [x]) := by
      simp only [heappush]
      rw [show (l ++ [x]).length - 1 = l.length by simp]
    rw [hgoal]
    have hperm : (siftdownLoop x 0 (l ++ [x]).length l.length (l ++ [x])).Perm (x :: l) := by
      refine hspec.2.trans ?_
      rw [set_append_len]
      exact List.perm_append_singleton x l
    exact ⟨hspec.1, hperm, by rw [hperm.length_eq]; simp⟩
  · intro i hi0 hilen hine hpne
    have hil : i < l.length := by simp at hilen; omega
    have hpl : (i - 1) / 2 < l.length := by omega
    rw [getD_append_lt _ _ _ _ hil, getD_append_lt _ _ _ _ hpl]
    exact hInv i hi0 hil
  · intro i hi0 hilen hpi
    simp at hilen
    exact ((by omega : False)).elim

theorem getD_dropLast {l : List PuzzleState} {i : ℕ} (hi : i < l.dropLast.length) :
    l.dropLast.getD i PSdefault = l.getD i PSdefault := by
  have hil : i < l.length := by
    rw [List.length_dropLast] at hi
    omega
  rw [List.getD_eq_getElem _ _ hi, List.getD_eq_getElem _ _ hil, List.getElem_dropLast]

/-- `heappop` on a non-empty heap returns an `f`-minimal element, keeps the
heap invariant, and removes exactly the returned element. -/
theorem heappop_spec {l : List PuzzleState} (hInv : HeapInv l) (hne : l ≠ []) :
    (∀ y ∈ l, (heappop l).1.f ≤ y.f) ∧
      HeapInv (heappop l).2 ∧ l.Perm ((heappop l).1 :: (heappop l).2) ∧
      (heappop l).2.length = l.length - 1 := by
  by_cases hone : l.length ≤ 1
  · obtain ⟨a, rfl⟩ : ∃ a, l = [a] := by
      cases l with
      | nil => exact absurd rfl hne
      | cons hd tl =>
        cases tl with
        | nil => exact ⟨hd, rfl⟩
        | cons h2 t2 => simp at hone
    have hpop : heappop [a] = (a, []) := rfl
    rw [hpop]
    refine ⟨?_, ?_, List.Perm.refl _, rfl⟩
    · intro y hy
      simp at hy
      rw [hy]
    · intro i hi0 hilen
      simp at hilen
  · push_neg at hone
    have hlpos : 0 < l.length := by omega
    have hdl : l.dropLast.length = l.length - 1 := List.length_dropLast l
    have hdlpos : 0 < l.dropLast.length := by omega
    have hdlne : l.dropLast ≠ [] := by
      intro h
      rw [h] at hdlpos
      simp at hdlpos
    set last := l.getLastD PSdefault with hlastdef
    have hlast : l.dropLast ++ [last] = l := by
      rw [hlastdef]
      cases l with
      | nil => exact absurd rfl hne
      | cons hd tl =>
        rw [List.getLastD_eq_getLast?, List.getLast?_eq_getLast _ (by simp)]
        exact List.dropLast_append_getLast (by simp)
    set heap2 := l.dropLast.set 0 last with hh2def
    have hh2len : heap2.length = l.length - 1 := by
      rw [hh2def, List.length_set, hdl]
    have hh2get : ∀ j, 0 < j → j < l.length - 1 →
        heap2.getD j PSdefault = l.getD j PSdefault := by
      intro j hj hjlen
      rw [hh2def, getD_set_ne _ _ _ _ _ (by omega)]
      exact getD_dropLast (by omega)
    have hsu := siftupLoop_spec (heap2.length - 0) 0 heap2 (by omega) (by omega) ?_ ?_
    · set r1 := (siftupLoop heap2.length (heap2.length - 0) 0 heap2).1 with hr1def
      set r2 := (siftupLoop heap2.length (heap2.length - 0) 0 heap2).2 with hr2def
      obtain ⟨hru1, hru2, hru3, hru4, hru5⟩ := hsu
      have hnew : heap2.getD 0 PSdefault = last := by
        rw [hh2def]
        exact getD_set_self _ _ _ _ (by omega)
      have hsd := siftdownLoop_spec last (r1 + 1) r1 (r2.set r1 last) (by omega)
        (by rw [List.length_set, hru2]; omega) ?_ ?_
      · have hsiftup : siftup heap2 0 = siftdownLoop last 0 (r1 + 1) r1 (r2.set r1 last) := by
          simp only [siftup]
          rw [hnew, hr1def, hr2def]
        have hfinalperm : (siftup heap2 0).Perm heap2 := by
          rw [hsiftup]
          refine hsd.2.trans ?_
          rw [List.set_set]
          refine (hru5 last).trans ?_
          rw [hh2def, List.set_set]
        have hcondne : ¬ (l.dropLast.isEmpty = true) := by
          simp [hdlne]
        have hpop : heappop l = (l.dropLast.getD 0 PSdefault, siftup heap2 0) := by
          simp only [heappop]
          rw [if_neg hcondne, hh2def, hlastdef]
        rw [hpop]
        have hr0 : l.dropLast.getD 0 PSdefault = l.getD 0 PSdefault := getD_dropLast hdlpos
        refine ⟨?_, hsiftup ▸ hsd.1, ?_, ?_⟩
        · intro y hy
          obtain ⟨i, hi, rfl⟩ := mem_iff_getD.mp hy
          show (l.dropLast.getD 0 PSdefault).f ≤ _
          rw [hr0]
          exact heapInv_root_le hInv i hi
        · show l.Perm (l.dropLast.getD 0 PSdefault :: siftup heap2 0)
          have hp1 : l.Perm (last :: l.dropLast) := by
            conv_lhs => rw [← hlast]
            exact List.perm_append_singleton _ _
          have hp2 : (l.dropLast).Perm
              (l.dropLast.getD 0 PSdefault :: l.dropLast.eraseIdx 0) :=
            perm_getD_cons_eraseIdx PSdefault _ 0 hdlpos
          have hp3 : heap2.Perm (last :: l.dropLast.eraseIdx 0) := by
            rw [hh2def]
            exact set_perm_cons_eraseIdx PSdefault _ 0 last hdlpos
          refine hp1.trans ?_
          refine (hp2.cons last).trans ?_
          refine (List.Perm.swap _ _ _).trans ?_
          refine (hp3.symm.cons _).trans ?_
          exact (hfinalperm.symm.cons _)
        · show (siftup heap2 0).length = l.length - 1
          rw [hfinalperm.length_eq, hh2len]
      · intro i hi0 hilen hine hpne
        rw [List.length_set, hru2] at hilen
        rw [getD_set_ne _ _ _ _ _ (fun h => hine h.symm),
          getD_set_ne _ _ _ _ _ (fun h => hpne h.symm)]
        exact hru4 i hi0 hilen hine hpne
      · intro i hi0 hilen hpi
        rw [List.length_set, hru2] at hilen
        exact ((by omega : False)).elim
    · intro i hi0 hilen hine hpne
      have hi2 : i < l.length - 1 := by omega
      have hp2 : (i - 1) / 2 < l.length - 1 := by omega
      by_cases hp0 : (i - 1) / 2 = 0
      · rw [hp0] at hpne
        exact absurd rfl hpne
      · rw [hh2get i hi0 hi2, hh2get _ (by omega) hp2]
        exact hInv i hi0 (by omega)
    · intro i hi0 hilen hpi hpos0
      exact absurd hpos0 (by omega)

/-! ### The A* loop: invariants, optimality and termination -/

/-- The body of the successor loop of `a_star`: skip successors already in the
closed list, push the rest with cost `gv + heuristic`. -/
def pushSucc (heuristic : Grid → Grid → ℕ) (goal_state : Grid) (cl : List Grid) (gv : ℕ)
    (acc : List PuzzleState) (s : Grid) : List PuzzleState :=
  if s ∈ cl then acc
  else heappush acc (PuzzleState.init s gv (heuristic s goal_state))

/-- One-step unfolding of `aStarLoop` with the lets expanded. -/
theorem aStarLoop_step (heuristic : Grid → Grid → ℕ) (goal_state : Grid) (fuel : ℕ)
    (openList : List PuzzleState) (closedList : List Grid) (expanded : ℕ) :
    aStarLoop heuristic goal_state (fuel + 1) openList closedList expanded =
      if openList.isEmpty then some none
      else if (heappop openList).1.puzzle ∈ closedList then
        aStarLoop heuristic goal_state fuel (heappop openList).2 closedList (expanded + 1)
      else if (heappop openList).1.puzzle = goal_state then
        some (some ((heappop openList).1.g, expanded + 1))
      else
        aStarLoop heuristic goal_state fuel
          ((generate_successors (heappop openList).1.puzzle).foldl
            (pushSucc heuristic goal_state ((heappop openList).1.puzzle :: closedList)
              ((heappop openList).1.g + 1))
            (heappop openList).2)
          ((heappop openList).1.puzzle :: closedList) (expanded + 1) := rfl

theorem mem_of_mem_heappush {l : List PuzzleState} (hInv : HeapInv l) {x y : PuzzleState}
    (hy : y ∈ heappush l x) : y = x ∨ y ∈ l := by
  have hperm := (heappush_spec hInv x).2.1
  simpa using hperm.mem_iff.mp hy

theorem mem_heappush_of {l : List PuzzleState} (hInv : HeapInv l) {x y : PuzzleState}
    (hy : y = x ∨ y ∈ l) : y ∈ heappush l x := by
  have hperm := (heappush_spec hInv x).2.1
  exact hperm.mem_iff.mpr (by simpa using hy)

theorem heappop_mem {l : List PuzzleState} (hInv : HeapInv l) (hne : l ≠ []) :
    (heappop l).1 ∈ l ∧ ∀ y ∈ (heappop l).2, y ∈ l := by
  have hperm := (heappop_spec hInv hne).2.2.1
  constructor
  · exact hperm.mem_iff.mpr (List.mem_cons_self _ _)
  · intro y hy
    exact hperm.mem_iff.mpr (List.mem_cons_of_mem _ hy)

/-- Behaviour of the successor-pushing fold: it preserves the heap invariant,
adds exactly the non-closed successors as fresh nodes, keeps every node of the
accumulator, and grows the list by at most one node per successor. -/
theorem foldl_push_spec (heuristic : Grid → Grid → ℕ) (goal_state : Grid) (cl : List Grid)
    (gv : ℕ) :
    ∀ (ss : List Grid) (acc : List PuzzleState), HeapInv acc →
      HeapInv (ss.foldl (pushSucc heuristic goal_state cl gv) acc) ∧
      (∀ y ∈ ss.foldl (pushSucc heuristic goal_state cl gv) acc,
        y ∈ acc ∨ ∃ s ∈ ss, s ∉ cl ∧
          y = PuzzleState.init s gv (heuristic s goal_state)) ∧
      (∀ y ∈ acc, y ∈ ss.foldl (pushSucc heuristic goal_state cl gv) acc) ∧
      (∀ s ∈ ss, s ∉ cl → PuzzleState.init s gv (heuristic s goal_state) ∈
        ss.foldl (pushSucc heuristic goal_state cl gv) acc) ∧
      (ss.foldl (pushSucc heuristic goal_state cl gv) acc).length ≤ acc.length + ss.length := by
  intro ss
  induction ss with
  | nil =>
    intro acc hInv
    refine ⟨hInv, ?_, ?_, ?_, ?_⟩
    · intro y hy
      exact Or.inl hy
    · intro y hy
      exact hy
    · intro s hs
      simp at hs
    · simp
  | cons s0 ss ih =>
    intro acc hInv
    rw [List.foldl_cons]
    by_cases hs0 : s0 ∈ cl
    · have hstep : pushSucc heuristic goal_state cl gv acc s0 = acc := by
        rw [pushSucc, if_pos hs0]
      rw [hstep]
      obtain ⟨h1, h2, h3, h4, h5⟩ := ih acc hInv
      refine ⟨h1, ?_, h3, ?_, by simp only [List.length_cons]; omega⟩
      · intro y hy
        rcases h2 y hy with h | ⟨s, hsmem, hscl, hyeq⟩
        · exact Or.inl h
        · exact Or.inr ⟨s, List.mem_cons_of_mem _ hsmem, hscl, hyeq⟩
      · intro s hsmem hscl
        rcases List.mem_cons.mp hsmem with rfl | hsmem2
        · exact absurd hs0 hscl
        · exact h4 s hsmem2 hscl
    · have hstep : pushSucc heuristic goal_state cl gv acc s0 =
          heappush acc (PuzzleState.init s0 gv (heuristic s0 goal_state)) := by
        rw [pushSucc, if_neg hs0]
      rw [hstep]
      have hpush := heappush_spec hInv (PuzzleState.init s0 gv (heuristic s0 goal_state))
      obtain ⟨h1, h2, h3, h4, h5⟩ := ih _ hpush.1
      refine ⟨h1, ?_, ?_, ?_, ?_⟩
      · intro y hy
        rcases h2 y hy with h | ⟨s, hsmem, hscl, hyeq⟩
        · rcases mem_of_mem_heappush hInv h with rfl | hmem
          · exact Or.inr ⟨s0, List.mem_cons_self _ _, hs0, rfl⟩
          · exact Or.inl hmem
        · exact Or.inr ⟨s, List.mem_cons_of_mem _ hsmem, hscl, hyeq⟩
      · intro y hy
        exact h3 y (mem_heappush_of hInv (Or.inr hy))
      · intro s hsmem hscl
        rcases List.mem_cons.mp hsmem with rfl | hsmem2
        · exact h3 _ (mem_heappush_of hInv (Or.inl rfl))
        · exact h4 s hsmem2 hscl
      · have := hpush.2.2
        simp only [List.length_cons] at h5 ⊢
        omega

/-- A well-formed grid has between 2 and 4 successors. -/
theorem succ_length_le {g : Grid} (hv : ValidGrid g) :
    (generate_successors g).length ≤ 4 := by
  obtain ⟨a, b, c, d, e, f, p, q, r, rfl, hcase⟩ := succ_cases hv
  rcases hcase with h | h | h | h | h | h | h | h | h <;> rw [h.2.2.2] <;> simp

/-- Injective encoding of well-formed grids into a fintype of size `9 ^ 9`. -/
def encodeGrid (g : Grid) : Fin 3 → Fin 3 → Fin 9 :=
  fun i j => ⟨gridGet g i j % 9, Nat.mod_lt _ (by omega)⟩

theorem encodeGrid_inj {g g' : Grid} (hg : ValidGrid g) (hg' : ValidGrid g')
    (he : encodeGrid g = encodeGrid g') : g = g' := by
  have hlt := valid_entry_lt hg
  have hlt' := valid_entry_lt hg'
  obtain ⟨a, b, c, d, e, f, p, q, r, rfl⟩ := valid_shape hg
  obtain ⟨a', b', c', d', e', f', p', q', r', rfl⟩ := valid_shape hg'
  simp only [List.flatten, List.mem_append, List.mem_cons, List.append_nil] at hlt hlt'
  have h00 := congrFun (congrFun he ⟨0, by omega⟩) ⟨0, by omega⟩
  have h01 := congrFun (congrFun he ⟨0, by omega⟩) ⟨1, by omega⟩
  have h02 := congrFun (congrFun he ⟨0, by omega⟩) ⟨2, by omega⟩
  have h10 := congrFun (congrFun he ⟨1, by omega⟩) ⟨0, by omega⟩
  have h11 := congrFun (congrFun he ⟨1, by omega⟩) ⟨1, by omega⟩
  have h12 := congrFun (congrFun he ⟨1, by omega⟩) ⟨2, by omega⟩
  have h20 := congrFun (congrFun he ⟨2, by omega⟩) ⟨0, by omega⟩
  have h21 := congrFun (congrFun he ⟨2, by omega⟩) ⟨1, by omega⟩
  have h22 := congrFun (congrFun he ⟨2, by omega⟩) ⟨2, by omega⟩
  simp only [encodeGrid, gridGet, Fin.mk.injEq, List.getD_cons_zero, List.getD_cons_succ]
    at h00 h01 h02 h10 h11 h12 h20 h21 h22
  have ha : a < 9 := hlt a (by simp)
  have hb : b < 9 := hlt b (by simp)
  have hc : c < 9 := hlt c (by simp)
  have hd : d < 9 := hlt d (by simp)
  have he2 : e < 9 := hlt e (by simp)
  have hf : f < 9 := hlt f (by simp)
  have hp : p < 9 := hlt p (by simp)
  have hq : q < 9 := hlt q (by simp)
  have hr : r < 9 := hlt r (by simp)
  have ha' : a' < 9 := hlt' a' (by simp)
  have hb' : b' < 9 := hlt' b' (by simp)
  have hc' : c' < 9 := hlt' c' (by simp)
  have hd' : d' < 9 := hlt' d' (by simp)
  have he2' : e' < 9 := hlt' e' (by simp)
  have hf' : f' < 9 := hlt' f' (by simp)
  have hp' : p' < 9 := hlt' p' (by simp)
  have hq' : q' < 9 := hlt' q' (by simp)
  have hr' : r' < 9 := hlt' r' (by simp)
  have : a = a' := by omega
  have : b = b' := by omega
  have : c = c' := by omega
  have : d = d' := by omega
  have : e = e' := by omega
  have : f = f' := by omega
  have : p = p' := by omega
  have : q = q' := by omega
  have : r = r' := by omega
  subst_vars
  rfl

/-- A duplicate-free list of well-formed grids has length at most `9 ^ 9`. -/
theorem closed_length_le {L : List Grid} (hnd : L.Nodup) (hval : ∀ x ∈ L, ValidGrid x) :
    L.length ≤ 9 ^ 9 := by
  have hinj : ∀ x ∈ L, ∀ y ∈ L, encodeGrid x = encodeGrid y → x = y := fun x hx y hy he =>
    encodeGrid_inj (hval x hx) (hval y hy) he
  have hnd2 : (L.map encodeGrid).Nodup := hnd.map_on hinj
  have hle := hnd2.length_le_card
  rw [List.length_map] at hle
  have hcard : Fintype.card (Fin 3 → Fin 3 → Fin 9) = 9 ^ 9 := by
    simp [Fintype.card_fun]
  omega

/-- The loop invariant of `a_star` run from `start` with heuristic
`heuristic` towards the canonical goal: the open list is a binary heap of
genuinely reachable, well-formed nodes whose `f` is `g + h`; the closed list
is a duplicate-free set of well-formed expanded grids, each closed with an
optimal `g` and with every successor either closed or available in the open
list at cost at most one more. -/
structure AStarInv (heuristic : Grid → Grid → ℕ) (start : Grid)
    (openList : List PuzzleState) (closedList : List Grid) : Prop where
  hinv : HeapInv openList
  openSound : ∀ m ∈ openList, ReachesIn start m.g m.puzzle ∧ ValidGrid m.puzzle ∧
    m.f = m.g + heuristic m.puzzle get_goal_state_puzzle
  closedValid : ∀ x ∈ closedList, ValidGrid x
  closedNodup : closedList.Nodup
  goalNotClosed : get_goal_state_puzzle ∉ closedList
  startAvail : start ∈ closedList ∨ ∃ m ∈ openList, m.puzzle = start ∧ m.g = 0
  closedOpt : ∀ x ∈ closedList, ∃ gx : ℕ, ReachesIn start gx x ∧
    (∀ m, ReachesIn start m x → gx ≤ m) ∧
    (∀ s ∈ generate_successors x, s ∈ closedList ∨
      ∃ m ∈ openList, m.puzzle = s ∧ m.g ≤ gx + 1)

/-- The bridge lemma of the standard A* optimality argument: while a grid `t`
reachable in `k` moves is not yet closed, the open list holds a node whose
`f`-value is at most `k + h t`. -/
theorem astar_bridge {heuristic : Grid → Grid → ℕ} {start : Grid}
    {openList : List PuzzleState} {closedList : List Grid}
    (hcons : Consistent heuristic) (hvstart : ValidGrid start)
    (inv : AStarInv heuristic start openList closedList) :
    ∀ {k : ℕ} {t : Grid}, ReachesIn start k t → t ∉ closedList →
      ∃ m ∈ openList, m.f ≤ k + heuristic t get_goal_state_puzzle := by
  intro k t hreach
  induction hreach with
  | refl =>
    intro hnc
    rcases inv.startAvail with hcl | ⟨m, hm, hpz, hg⟩
    · exact absurd hcl hnc
    · refine ⟨m, hm, ?_⟩
      have hf := (inv.openSound m hm).2.2
      rw [hf, hpz, hg]
  | @step n g s hr hs ih =>
    intro hnc
    by_cases hgc : g ∈ closedList
    · obtain ⟨gx, hgx1, hgx2, hcov⟩ := inv.closedOpt g hgc
      have hgxn : gx ≤ n := hgx2 n hr
      rcases hcov s hs with hsc | ⟨m, hm, hpz, hgle⟩
      · exact absurd hsc hnc
      · refine ⟨m, hm, ?_⟩
        have hf := (inv.openSound m hm).2.2
        rw [hf, hpz]
        omega
    · obtain ⟨m, hm, hmf⟩ := ih hgc
      have hvg : ValidGrid g := valid_reach hvstart hr
      have hco := hcons g s hvg hs
      exact ⟨m, hm, by omega⟩

/-- Soundness of the search loop for an arbitrary heuristic: a returned cost
is the length of an actual move sequence from `start` to the goal grid. -/
theorem aStarLoop_sound (heuristic : Grid → Grid → ℕ) (goal_state start : Grid) :
    ∀ (fuel : ℕ) (openList : List PuzzleState) (closedList : List Grid)
      (expanded c e : ℕ),
      HeapInv openList →
      (∀ m ∈ openList, ReachesIn start m.g m.puzzle ∧ ValidGrid m.puzzle) →
      aStarLoop heuristic goal_state fuel openList closedList expanded =
        some (some (c, e)) →
      ReachesIn start c goal_state := by
  intro fuel
  induction fuel with
  | zero =>
    intro openList closedList expanded c e _ _ hres
    simp [aStarLoop] at hres
  | succ fuel ih =>
    intro openList closedList expanded c e hinv hsound hres
    rw [aStarLoop_step] at hres
    by_cases hoe : openList.isEmpty
    · rw [if_pos hoe] at hres
      simp at hres
    · rw [if_neg hoe] at hres
      have hne : openList ≠ [] := fun h => hoe (by rw [h]; rfl)
      have hpop := heappop_spec hinv hne
      have hmem := heappop_mem hinv hne
      by_cases hdup : (heappop openList).1.puzzle ∈ closedList
      · rw [if_pos hdup] at hres
        exact ih _ _ _ _ _ hpop.2.1 (fun m hm => hsound m (hmem.2 m hm)) hres
      · rw [if_neg hdup] at hres
        by_cases hgoal : (heappop openList).1.puzzle = goal_state
        · rw [if_pos hgoal] at hres
          have hc : (heappop openList).1.g = c := by
            injection hres with hres1
            injection hres1 with hres2
            exact congrArg Prod.fst hres2
          have := (hsound _ hmem.1).1
          rw [hc, hgoal] at this
          exact this
        · rw [if_neg hgoal] at hres
          have hp1 := hsound _ hmem.1
          have hfold := foldl_push_spec heuristic goal_state
            ((heappop openList).1.puzzle :: closedList) ((heappop openList).1.g + 1)
            (generate_successors (heappop openList).1.puzzle) (heappop openList).2
            hpop.2.1
          refine ih _ _ _ _ _ hfold.1 ?_ hres
          intro m hm
          rcases hfold.2.1 m hm with hold | ⟨s, hsmem, _, rfl⟩
          · exact hsound m (hmem.2 m hold)
          · constructor
            · exact @ReachesIn.step start (heappop openList).1.g (heappop openList).1.puzzle
                s hp1.1 hsmem
            · exact succ_valid hp1.2 hsmem

/-- The heart of the optimality proof: with a consistent heuristic, enough
fuel and the invariant, the loop returns the cost of a shortest move sequence
from `start` to the goal grid. -/
theorem aStarLoop_opt (heuristic : Grid → Grid → ℕ) (start : Grid)
    (hcons : Consistent heuristic) (hvstart : ValidGrid start)
    (n0 : ℕ) (hr0 : ReachesIn start n0 get_goal_state_puzzle) :
    ∀ (fuel : ℕ) (openList : List PuzzleState) (closedList : List Grid) (expanded : ℕ),
      openList.length + 5 * (9 ^ 9 - closedList.length) < fuel →
      AStarInv heuristic start openList closedList →
      ∃ c e, aStarLoop heuristic get_goal_state_puzzle fuel openList closedList expanded =
          some (some (c, e)) ∧
        ReachesIn start c get_goal_state_puzzle ∧
        (∀ m, ReachesIn start m get_goal_state_puzzle → c ≤ m) := by
  intro fuel
  induction fuel with
  | zero =>
    intro openList closedList expanded hfuel inv
    omega
  | succ fuel ih =>
    intro openList closedList expanded hfuel inv
    obtain ⟨mb, hmb, hmbf⟩ := astar_bridge hcons hvstart inv hr0 inv.goalNotClosed
    have hne : openList ≠ [] := fun h => by
      rw [h] at hmb
      exact (List.not_mem_nil mb) hmb
    have hoe : ¬ (openList.isEmpty = true) := by simp [hne]
    rw [aStarLoop_step, if_neg hoe]
    have hpop := heappop_spec inv.hinv hne
    have hmem := heappop_mem inv.hinv hne
    have hlen := hpop.2.2.2
    have holen : 0 < openList.length := List.length_pos.mpr hne
    by_cases hdup : (heappop openList).1.puzzle ∈ closedList
    · rw [if_pos hdup]
      refine ih (heappop openList).2 closedList (expanded + 1) (by omega) ?_
      refine ⟨hpop.2.1, ?_, inv.closedValid, inv.closedNodup, inv.goalNotClosed, ?_, ?_⟩
      · intro m hm
        exact inv.openSound m (hmem.2 m hm)
      · rcases inv.startAvail with h | ⟨m, hm, hpz, hg⟩
        · exact Or.inl h
        · have hmor := hpop.2.2.1.mem_iff.mp hm
          rcases List.mem_cons.mp hmor with rfl | hm2
          · exact Or.inl (hpz ▸ hdup)
          · exact Or.inr ⟨m, hm2, hpz, hg⟩
      · intro x hx
        obtain ⟨gx, h1, h2, hcov⟩ := inv.closedOpt x hx
        refine ⟨gx, h1, h2, ?_⟩
        intro s hs
        rcases hcov s hs with h | ⟨m, hm, hpz, hg⟩
        · exact Or.inl h
        · have hmor := hpop.2.2.1.mem_iff.mp hm
          rcases List.mem_cons.mp hmor with rfl | hm2
          · exact Or.inl (hpz ▸ hdup)
          · exact Or.inr ⟨m, hm2, hpz, hg⟩
    · rw [if_neg hdup]
      have hp1s := inv.openSound _ hmem.1
      have hopt : ∀ m, ReachesIn start m (heappop openList).1.puzzle →
          (heappop openList).1.g ≤ m := by
        intro m hm
        obtain ⟨q, hq, hqf⟩ := astar_bridge hcons hvstart inv hm hdup
        have hmin := hpop.1 q hq
        have hf1 := hp1s.2.2
        omega
      by_cases hgoal : (heappop openList).1.puzzle = get_goal_state_puzzle
      · rw [if_pos hgoal]
        refine ⟨(heappop openList).1.g, expanded + 1, rfl, ?_, ?_⟩
        · have h1 := hp1s.1
          rw [hgoal] at h1
          exact h1
        · intro m hm
          exact hopt m (by rw [hgoal]; exact hm)
      · rw [if_neg hgoal]
        have hvp : ValidGrid (heappop openList).1.puzzle := hp1s.2.1
        have hfold := foldl_push_spec heuristic get_goal_state_puzzle
          ((heappop openList).1.puzzle :: closedList) ((heappop openList).1.g + 1)
          (generate_successors (heappop openList).1.puzzle) (heappop openList).2 hpop.2.1
        have hnd2 : ((heappop openList).1.puzzle :: closedList).Nodup :=
          List.nodup_cons.mpr ⟨hdup, inv.closedNodup⟩
        have hval2 : ∀ x ∈ (heappop openList).1.puzzle :: closedList, ValidGrid x := by
          intro x hx
          rcases List.mem_cons.mp hx with rfl | hx2
          · exact hvp
          · exact inv.closedValid x hx2
        have hcl2 : ((heappop openList).1.puzzle :: closedList).length ≤ 9 ^ 9 :=
          closed_length_le hnd2 hval2
        have hslen := succ_length_le hvp
        have hfoldlen := hfold.2.2.2.2
        refine ih _ _ (expanded + 1) ?_ ?_
        · simp only [List.length_cons] at hcl2 ⊢
          omega
        · refine ⟨hfold.1, ?_, hval2, hnd2, ?_, ?_, ?_⟩
          · intro m hm
            rcases hfold.2.1 m hm with hold | ⟨s, hsmem, _, rfl⟩
            · exact inv.openSound m (hmem.2 m hold)
            · refine ⟨?_, ?_, rfl⟩
              · exact @ReachesIn.step start (heappop openList).1.g
                  (heappop openList).1.puzzle s hp1s.1 hsmem
              · exact succ_valid hvp hsmem
          · intro hg
            rcases List.mem_cons.mp hg with h | h
            · exact hgoal h.symm
            · exact inv.goalNotClosed h
          · rcases inv.startAvail with h | ⟨m, hm, hpz, hg⟩
            · exact Or.inl (List.mem_cons_of_mem _ h)
            · have hmor := hpop.2.2.1.mem_iff.mp hm
              rcases List.mem_cons.mp hmor with rfl | hm2
              · refine Or.inl ?_
                rw [← hpz]
                exact List.mem_cons_self _ _
              · exact Or.inr ⟨m, hfold.2.2.1 m hm2, hpz, hg⟩
          · intro x hx
            rcases List.mem_cons.mp hx with rfl | hx2
            · refine ⟨(heappop openList).1.g, hp1s.1, hopt, ?_⟩
              intro s hs
              by_cases hscl : s ∈ (heappop openList).1.puzzle :: closedList
              · exact Or.inl hscl
              · exact Or.inr ⟨PuzzleState.init s ((heappop openList).1.g + 1)
                  (heuristic s get_goal_state_puzzle), hfold.2.2.2.1 s hs hscl, rfl,
                  Nat.le_refl _⟩
            · obtain ⟨gx, h1, h2, hcov⟩ := inv.closedOpt x hx2
              refine ⟨gx, h1, h2, ?_⟩
              intro s hs
              rcases hcov s hs with h | ⟨m, hm, hpz, hg⟩
              · exact Or.inl (List.mem_cons_of_mem _ h)
              · have hmor := hpop.2.2.1.mem_iff.mp hm
                rcases List.mem_cons.mp hmor with rfl | hm2
                · refine Or.inl ?_
                  rw [← hpz]
                  exact List.mem_cons_self _ _
                · exact Or.inr ⟨m, hfold.2.2.1 m hm2, hpz, hg⟩

/-- An explicit 14-move solution of the fixture start grid. -/
theorem fixture_reach14 :
    ReachesIn [[1, 2, 3], [4, 0, 5], [6, 7, 8]] 14 get_goal_state_puzzle := by
  have h0 : ReachesIn [[1, 2, 3], [4, 0, 5], [6, 7, 8]] 0
      [[1, 2, 3], [4, 0, 5], [6, 7, 8]] := ReachesIn.refl
  have h1 : ReachesIn [[1, 2, 3], [4, 0, 5], [6, 7, 8]] 1
      [[1, 2, 3], [0, 4, 5], [6, 7, 8]] :=
    @ReachesIn.step [[1, 2, 3], [4, 0, 5], [6, 7, 8]] 0
      [[1, 2, 3], [4, 0, 5], [6, 7, 8]] [[1, 2, 3], [0, 4, 5], [6, 7, 8]]
      h0 (by decide)
  have h2 : ReachesIn [[1, 2, 3], [4, 0, 5], [6, 7, 8]] 2
      [[0, 2, 3], [1, 4, 5], [6, 7, 8]] :=
    @ReachesIn.step [[1, 2, 3], [4, 0, 5], [6, 7, 8]] 1
      [[1, 2, 3], [0, 4, 5], [6, 7, 8]] [[0, 2, 3], [1, 4, 5], [6, 7, 8]]
      h1 (by decide)
  have h3 : ReachesIn [[1, 2, 3], [4, 0, 5], [6, 7, 8]] 3
      [[2, 0, 3], [1, 4, 5], [6, 7, 8]] :=
    @ReachesIn.step [[1, 2, 3], [4, 0, 5], [6, 7, 8]] 2
      [[0, 2, 3], [1, 4, 5], [6, 7, 8]] [[2, 0, 3], [1, 4, 5], [6, 7, 8]]
      h2 (by decide)
  have h4 : ReachesIn [[1, 2, 3], [4, 0, 5], [6, 7, 8]] 4
      [[2, 3, 0], [1, 4, 5], [6, 7, 8]] :=
    @ReachesIn.step [[1, 2, 3], [4, 0, 5], [6, 7, 8]] 3
      [[2, 0, 3], [1, 4, 5], [6, 7, 8]] [[2, 3, 0], [1, 4, 5], [6, 7, 8]]
      h3 (by decide)
  have h5 : ReachesIn [[1, 2, 3], [4, 0, 5], [6, 7, 8]] 5
      [[2, 3, 5], [1, 4, 0], [6, 7, 8]] :=
    @ReachesIn.step [[1, 2, 3], [4, 0, 5], [6, 7, 8]] 4
      [[2, 3, 0], [1, 4, 5], [6, 7, 8]] [[2, 3, 5], [1, 4, 0], [6, 7, 8]]
      h4 (by decide)
  have h6 : ReachesIn [[1, 2, 3], [4, 0, 5], [6, 7, 8]] 6
      [[2, 3, 5], [1, 0, 4], [6, 7, 8]] :=
    @ReachesIn.step [[1, 2, 3], [4, 0, 5], [6, 7, 8]] 5
      [[2, 3, 5], [1, 4, 0], [6, 7, 8]] [[2, 3, 5], [1, 0, 4], [6, 7, 8]]
      h5 (by decide)
  have h7 : ReachesIn [[1, 2, 3], [4, 0, 5], [6, 7, 8]] 7
      [[2, 0, 5], [1, 3, 4], [6, 7, 8]] :=
    @ReachesIn.step [[1, 2, 3], [4, 0, 5], [6, 7, 8]] 6
      [[2, 3, 5], [1, 0, 4], [6, 7, 8]] [[2, 0, 5], [1, 3, 4], [6, 7, 8]]
      h6 (by decide)
  have h8 : ReachesIn [[1, 2, 3], [4, 0, 5], [6, 7, 8]] 8
      [[0, 2, 5], [1, 3, 4], [6, 7, 8]] :=
    @ReachesIn.step [[1, 2, 3], [4, 0, 5], [6, 7, 8]] 7
      [[2, 0, 5], [1, 3, 4], [6, 7, 8]] [[0, 2, 5], [1, 3, 4], [6, 7, 8]]
      h7 (by decide)
  have h9 : ReachesIn [[1, 2, 3], [4, 0, 5], [6, 7, 8]] 9
      [[1, 2, 5], [0, 3, 4], [6, 7, 8]] :=
    @ReachesIn.step [[1, 2, 3], [4, 0, 5], [6, 7, 8]] 8
      [[0, 2, 5], [1, 3, 4], [6, 7, 8]] [[1, 2, 5], [0, 3, 4], [6, 7, 8]]
      h8 (by decide)
  have h10 : ReachesIn [[1, 2, 3], [4, 0, 5], [6, 7, 8]] 10
      [[1, 2, 5], [3, 0, 4], [6, 7, 8]] :=
    @ReachesIn.step [[1, 2, 3], [4, 0, 5], [6, 7, 8]] 9
      [[1, 2, 5], [0, 3, 4], [6, 7, 8]] [[1, 2, 5], [3, 0, 4], [6, 7, 8]]
      h9 (by decide)
  have h11 : ReachesIn [[1, 2, 3], [4, 0, 5], [6, 7, 8]] 11
      [[1, 2, 5], [3, 4, 0], [6, 7, 8]] :=
    @ReachesIn.step [[1, 2, 3], [4, 0, 5], [6, 7, 8]] 10
      [[1, 2, 5], [3, 0, 4], [6, 7, 8]] [[1, 2, 5], [3, 4, 0], [6, 7, 8]]
      h10 (by decide)
  have h12 : ReachesIn [[1, 2, 3], [4, 0, 5], [6, 7, 8]] 12
      [[1, 2, 0], [3, 4, 5], [6, 7, 8]] :=
    @ReachesIn.step [[1, 2, 3], [4, 0, 5], [6, 7, 8]] 11
      [[1, 2, 5], [3, 4, 0], [6, 7, 8]] [[1, 2, 0], [3, 4, 5], [6, 7, 8]]
      h11 (by decide)
  have h13 : ReachesIn [[1, 2, 3], [4, 0, 5], [6, 7, 8]] 13
      [[1, 0, 2], [3, 4, 5], [6, 7, 8]] :=
    @ReachesIn.step [[1, 2, 3], [4, 0, 5], [6, 7, 8]] 12
      [[1, 2, 0], [3, 4, 5], [6, 7, 8]] [[1, 0, 2], [3, 4, 5], [6, 7, 8]]
      h12 (by decide)
  have h14 : ReachesIn [[1, 2, 3], [4, 0, 5], [6, 7, 8]] 14
      get_goal_state_puzzle :=
    @ReachesIn.step [[1, 2, 3], [4, 0, 5], [6, 7, 8]] 13
      [[1, 0, 2], [3, 4, 5], [6, 7, 8]] get_goal_state_puzzle
      h13 (by decide)
  exact h14

theorem heappush_nil (x : PuzzleState) : heappush [] x = [x] := rfl

/-- Soundness of `a_star` for an arbitrary heuristic and goal: a returned
cost is the length of an actual move sequence from `start` to `goal_state`. -/
theorem a_star_sound {heuristic : Grid → Grid → ℕ} {start goal_state : Grid} {c e : ℕ}
    (hv : ValidGrid start)
    (hres : a_star start goal_state heuristic = some (some (c, e))) :
    ReachesIn start c goal_state := by
  rw [a_star, heappush_nil] at hres
  have hinv : HeapInv [PuzzleState.init start 0 (heuristic start goal_state)] := by
    intro i hi hilen
    simp at hilen
    omega
  have hos : ∀ m ∈ [PuzzleState.init start 0 (heuristic start goal_state)],
      ReachesIn start m.g m.puzzle ∧ ValidGrid m.puzzle := by
    intro m hm
    rw [List.mem_singleton] at hm
    subst hm
    exact ⟨ReachesIn.refl, hv⟩
  exact aStarLoop_sound heuristic goal_state start aStarFuel _ [] 0 c e hinv hos hres

/-- Optimality of `a_star` towards the canonical goal, for any consistent
heuristic, on any well-formed start from which the goal is reachable. -/
theorem a_star_opt {heuristic : Grid → Grid → ℕ} {start : Grid}
    (hcons : Consistent heuristic) (hv : ValidGrid start)
    {n0 : ℕ} (hr0 : ReachesIn start n0 get_goal_state_puzzle) :
    ∃ c e, a_star start get_goal_state_puzzle heuristic = some (some (c, e)) ∧
      ReachesIn start c get_goal_state_puzzle ∧
      (∀ m, ReachesIn start m get_goal_state_puzzle → c ≤ m) := by
  rw [a_star, heappush_nil]
  refine aStarLoop_opt heuristic start hcons hv n0 hr0 aStarFuel _ [] 0 ?_ ?_
  · simp only [List.length_cons, List.length_nil, aStarFuel]
    omega
  · refine ⟨?_, ?_, ?_, List.nodup_nil, List.not_mem_nil _, ?_, ?_⟩
    · intro i hi hilen
      simp at hilen
      omega
    · intro m hm
      rw [List.mem_singleton] at hm
      subst hm
      exact ⟨ReachesIn.refl, hv, rfl⟩
    · intro x hx
      exact absurd hx (List.not_mem_nil x)
    · exact Or.inr ⟨PuzzleState.init start 0 (heuristic start get_goal_state_puzzle),
        List.mem_singleton_self _, rfl, rfl⟩
    · intro x hx
      exact absurd hx (List.not_mem_nil x)

/-- The goal is not within 5 moves of the fixture start grid. -/
theorem fixture_not_reach_le5 :
    ∀ m ≤ 5, ¬ ReachesIn [[1, 2, 3], [4, 0, 5], [6, 7, 8]] m get_goal_state_puzzle := by
  intro m hm
  apply not_reachesIn_of_not_mem_ball hm
  decide

/-!
### Instrumented loop for the closed-set invariant (C10)

`aStarLoopT` is `aStarLoop` with two observers added and nothing else
changed: the list of grids that get expanded (i.e. added to the closed set,
newest first) and the closed list at the moment the loop stops.
-/

def aStarLoopT (heuristic : Grid → Grid → ℕ) (goal_state : Grid) :
    ℕ → List PuzzleState → List Grid → ℕ →
      Option (Option (ℕ × ℕ)) × List Grid × List Grid
  | 0, _, closedList, _ => (none, [], closedList)
  | fuel + 1, openList, closedList, expanded =>
    if openList.isEmpty then (some none, [], closedList)
    else
      let p := heappop openList
      let expanded2 := expanded + 1
      if p.1.puzzle ∈ closedList then
        aStarLoopT heuristic goal_state fuel p.2 closedList expanded2
      else
        let closed2 := p.1.puzzle :: closedList
        if p.1.puzzle = goal_state then
          (some (some (p.1.g, expanded2)), [p.1.puzzle], closed2)
        else
          let r := aStarLoopT heuristic goal_state fuel
            ((generate_successors p.1.puzzle).foldl
              (fun acc successor =>
                if successor ∈ closed2 then acc
                else
                  heappush acc
                    (PuzzleState.init successor (p.1.g + 1)
                      (heuristic successor goal_state)))
              p.2)
            closed2 expanded2
          (r.1, r.2.1 ++ [p.1.puzzle], r.2.2)

/-- One-step unfolding of `aStarLoopT` with the lets expanded. -/
theorem aStarLoopT_step (heuristic : Grid → Grid → ℕ) (goal_state : Grid) (fuel : ℕ)
    (openList : List PuzzleState) (closedList : List Grid) (expanded : ℕ) :
    aStarLoopT heuristic goal_state (fuel + 1) openList closedList expanded =
      if openList.isEmpty then (some none, [], closedList)
      else if (heappop openList).1.puzzle ∈ closedList then
        aStarLoopT heuristic goal_state fuel (heappop openList).2 closedList (expanded + 1)
      else if (heappop openList).1.puzzle = goal_state then
        (some (some ((heappop openList).1.g, expanded + 1)), [(heappop openList).1.puzzle],
          (heappop openList).1.puzzle :: closedList)
      else
        ((aStarLoopT heuristic goal_state fuel
            ((generate_successors (heappop openList).1.puzzle).foldl
              (pushSucc heuristic goal_state ((heappop openList).1.puzzle :: closedList)
                ((heappop openList).1.g + 1))
              (heappop openList).2)
            ((heappop openList).1.puzzle :: closedList) (expanded + 1)).1,
          (aStarLoopT heuristic goal_state fuel
            ((generate_successors (heappop openList).1.puzzle).foldl
              (pushSucc heuristic goal_state ((heappop openList).1.puzzle :: closedList)
                ((heappop openList).1.g + 1))
              (heappop openList).2)
            ((heappop openList).1.puzzle :: closedList) (expanded + 1)).2.1 ++
            [(heappop openList).1.puzzle],
          (aStarLoopT heuristic goal_state fuel
            ((generate_successors (heappop openList).1.puzzle).foldl
              (pushSucc heuristic goal_state ((heappop openList).1.puzzle :: closedList)
                ((heappop openList).1.g + 1))
              (heappop openList).2)
            ((heappop openList).1.puzzle :: closedList) (expanded + 1)).2.2) := rfl

/-- The instrumentation is faithful, the closed list only ever grows (the
final closed list extends the initial one by exactly the expansion trace),
and no grid is expanded twice: the trace is duplicate-free and disjoint from
the initial closed list. -/
theorem aStarLoopT_spec (heuristic : Grid → Grid → ℕ) (goal_state : Grid) :
    ∀ (fuel : ℕ) (openList : List PuzzleState) (closedList : List Grid) (expanded : ℕ),
      (aStarLoopT heuristic goal_state fuel openList closedList expanded).1 =
        aStarLoop heuristic goal_state fuel openList closedList expanded ∧
      (aStarLoopT heuristic goal_state fuel openList closedList expanded).2.2 =
        (aStarLoopT heuristic goal_state fuel openList closedList expanded).2.1 ++
          closedList ∧
      (aStarLoopT heuristic goal_state fuel openList closedList expanded).2.1.Nodup ∧
      (∀ x ∈ (aStarLoopT heuristic goal_state fuel openList closedList expanded).2.1,
        x ∉ closedList) := by
  intro fuel
  induction fuel with
  | zero =>
    intro openList closedList expanded
    refine ⟨rfl, rfl, List.nodup_nil, ?_⟩
    intro x hx
    exact absurd hx (List.not_mem_nil x)
  | succ fuel ih =>
    intro openList closedList expanded
    rw [aStarLoopT_step, aStarLoop_step]
    by_cases hoe : openList.isEmpty
    · rw [if_pos hoe, if_pos hoe]
      refine ⟨rfl, rfl, List.nodup_nil, ?_⟩
      intro x hx
      exact absurd hx (List.not_mem_nil x)
    · rw [if_neg hoe, if_neg hoe]
      by_cases hdup : (heappop openList).1.puzzle ∈ closedList
      · rw [if_pos hdup, if_pos hdup]
        exact ih (heappop openList).2 closedList (expanded + 1)
      · rw [if_neg hdup, if_neg hdup]
        by_cases hgoal : (heappop openList).1.puzzle = goal_state
        · rw [if_pos hgoal, if_pos hgoal]
          refine ⟨rfl, rfl, List.nodup_singleton _, ?_⟩
          intro x hx
          rw [List.mem_singleton] at hx
          subst hx
          exact hdup
        · rw [if_neg hgoal, if_neg hgoal]
          obtain ⟨ih1, ih2, ih3, ih4⟩ := ih
            ((generate_successors (heappop openList).1.puzzle).foldl
              (pushSucc heuristic goal_state ((heappop openList).1.puzzle :: closedList)
                ((heappop openList).1.g + 1))
              (heappop openList).2)
            ((heappop openList).1.puzzle :: closedList) (expanded + 1)
          refine ⟨ih1, ?_, ?_, ?_⟩
          · rw [ih2, List.append_assoc]
            rfl
          · rw [List.nodup_append]
            refine ⟨ih3, List.nodup_singleton _, ?_⟩
            intro x hx hx2
            rw [List.mem_singleton] at hx2
            subst hx2
            exact ih4 _ hx (List.mem_cons_self _ _)
          · intro x hx
            rw [List.mem_append, List.mem_singleton] at hx
            rcases hx with hx | rfl
            · have := ih4 x hx
              intro hxc
              exact this (List.mem_cons_of_mem _ hxc)
            · exact hdup

/-- C1: for every well-formed start grid from which the canonical goal is
reachable (solvable), and every admissible and consistent heuristic,
`a_star` succeeds and the first component of its result is the minimum number
of single-tile moves from the start to the goal; moreover
`calc_hamming_distance` is such a heuristic. -/
theorem c1_astar_optimal (start : Grid) (heuristic : Grid → Grid → ℕ)
    (hv : ValidGrid start)
    (hsolv : ∃ n, ReachesIn start n get_goal_state_puzzle)
    (hadm : Admissible heuristic) (hcons : Consistent heuristic) :
    (Admissible calc_hamming_distance ∧ Consistent calc_hamming_distance) ∧
    ∃ c e, a_star start get_goal_state_puzzle heuristic = some (some (c, e)) ∧
      ReachesIn start c get_goal_state_puzzle ∧
      (∀ m, ReachesIn start m get_goal_state_puzzle → c ≤ m) := by
  obtain ⟨n0, hr0⟩ := hsolv
  exact ⟨⟨hamming_admissible, hamming_consistent⟩, a_star_opt hcons hv hr0⟩

/-- Witness for C1 at the concrete solvable start `get_goal_state_puzzle`
with the concrete admissible and consistent heuristic `calc_hamming_distance`. -/
theorem c1_astar_optimal_witness :
    (Admissible calc_hamming_distance ∧ Consistent calc_hamming_distance) ∧
    ∃ c e, a_star get_goal_state_puzzle get_goal_state_puzzle calc_hamming_distance =
        some (some (c, e)) ∧
      ReachesIn get_goal_state_puzzle c get_goal_state_puzzle ∧
      (∀ m, ReachesIn get_goal_state_puzzle m get_goal_state_puzzle → c ≤ m) :=
  c1_astar_optimal get_goal_state_puzzle calc_hamming_distance (by decide)
    ⟨0, ReachesIn.refl⟩ hamming_admissible hamming_consistent

/-- C4 (amended): on the fixture start `[[1,2,3],[4,0,5],[6,7,8]]` the search
succeeds but the optimal cost is not 5: with the consistent Hamming heuristic
the returned cost is the true minimum move count and lies between 6 and 14
(it is in fact 14), and any cost returned with the Manhattan heuristic is
also at least 6. -/
theorem c4_fixture_cost :
    (∃ c e,
      a_star [[1, 2, 3], [4, 0, 5], [6, 7, 8]] get_goal_state_puzzle
          calc_hamming_distance = some (some (c, e)) ∧
        ReachesIn [[1, 2, 3], [4, 0, 5], [6, 7, 8]] c get_goal_state_puzzle ∧
        (∀ m, ReachesIn [[1, 2, 3], [4, 0, 5], [6, 7, 8]] m get_goal_state_puzzle →
          c ≤ m) ∧
        6 ≤ c ∧ c ≤ 14) ∧
    (∀ c e,
      a_star [[1, 2, 3], [4, 0, 5], [6, 7, 8]] get_goal_state_puzzle
          calc_manhattan_distance = some (some (c, e)) → 6 ≤ c ∧ c ≠ 5) := by
  constructor
  · obtain ⟨c, e, hres, hreach, hmin⟩ :=
      a_star_opt hamming_consistent (by decide) fixture_reach14
    refine ⟨c, e, hres, hreach, hmin, ?_, hmin 14 fixture_reach14⟩
    by_contra hlt
    push_neg at hlt
    exact fixture_not_reach_le5 c (by omega) hreach
  · intro c e hres
    have hreach := a_star_sound (by decide) hres
    have h6 : 6 ≤ c := by
      by_contra hlt
      push_neg at hlt
      exact fixture_not_reach_le5 c (by omega) hreach
    exact ⟨h6, by omega⟩

/-- C4 (counterexample to the claimed value): the fixture's cost is not 5
under either heuristic — whatever pair `a_star` returns, its cost component
differs from 5, because the goal is not within 5 moves of the fixture. -/
theorem c4_counterexample :
    (∀ c e, a_star [[1, 2, 3], [4, 0, 5], [6, 7, 8]] get_goal_state_puzzle
        calc_hamming_distance = some (some (c, e)) → c ≠ 5) ∧
    (∀ c e, a_star [[1, 2, 3], [4, 0, 5], [6, 7, 8]] get_goal_state_puzzle
        calc_manhattan_distance = some (some (c, e)) → c ≠ 5) := by
  constructor <;>
    · intro c e hres h5
      subst h5
      exact fixture_not_reach_le5 5 (by omega) (a_star_sound (by decide) hres)

/-- C10: each grid is expanded at most once and the closed set only grows.
`aStarLoopT` is the loop of `a_star` instrumented with the list of grids that
get expanded (added to the closed set) and the final closed list; the
instrumentation returns the very result of `aStarLoop` (first conjunct), the
final closed list is the initial one extended by exactly the expansion trace,
so the closed set only ever grows (second conjunct), and the trace is
duplicate-free and disjoint from the initial closed list, so a grid already
in the closed set is never expanded again: a duplicate pop is discarded
(third and fourth conjuncts). -/
theorem c10_closed_set_monotone :
    ∀ (heuristic : Grid → Grid → ℕ) (goal_state : Grid) (fuel : ℕ)
      (openList : List PuzzleState) (closedList : List Grid) (expanded : ℕ),
      (aStarLoopT heuristic goal_state fuel openList closedList expanded).1 =
        aStarLoop heuristic goal_state fuel openList closedList expanded ∧
      (aStarLoopT heuristic goal_state fuel openList closedList expanded).2.2 =
        (aStarLoopT heuristic goal_state fuel openList closedList expanded).2.1 ++
          closedList ∧
      (aStarLoopT heuristic goal_state fuel openList closedList expanded).2.1.Nodup ∧
      (∀ x ∈ (aStarLoopT heuristic goal_state fuel openList closedList expanded).2.1,
        x ∉ closedList) :=
  fun heuristic goal_state fuel openList closedList expanded =>
    aStarLoopT_spec heuristic goal_state fuel openList closedList expanded
